import Mathlib

set_option maxRecDepth 8000

/-!
Shallow embedding of the Sudoku constraint-propagation engine from `src/main.rs`.

Digits are represented internally as indices `0..8` (digit `d` of the puzzle is
stored as `d-1`), and `solved_value = -1` means unsolved, mirroring the `i8`
representation used by the source.  The `[[SudokuField; 9]; 9]` array becomes a
9×9 list of lists (outer index `x`, inner index `y`, as in `fields[x][y]`); the
immutable constraint list is threaded as a read-only parameter.  The `assert!`
in `solve_simple` and array indexing with run-time-computed indices are
modelled by `Option`-valued passes where `none` denotes a fatal panic.
-/

structure SudokuField where
  possible_values : List Bool
  solved_value : Int
deriving DecidableEq

abbrev Pos := Fin 9 × Fin 9

structure SudokuConstraint where
  id : Nat
  fields : List Pos
deriving DecidableEq

/-- The shape invariant of the Rust array type `[[SudokuField; 9]; 9]`. -/
def GridOK (l : List (List SudokuField)) : Prop :=
  l.length = 9 ∧ ∀ col ∈ l, col.length = 9

instance (l : List (List SudokuField)) : Decidable (GridOK l) := by
  unfold GridOK; infer_instance

def Grid : Type := { l : List (List SudokuField) // GridOK l }

instance : DecidableEq Grid := fun a b =>
  decidable_of_iff (a.val = b.val) Subtype.ext_iff.symm

/-- Fallback for out-of-shape reads; never reached on a `Grid`. -/
def defaultField : SudokuField := { possible_values := [], solved_value := 0 }

/-- Read `sudoku.fields[x][y]`. -/
def getF (g : Grid) (p : Pos) : SudokuField :=
  (g.val.getD p.1.val []).getD p.2.val defaultField

/-- Write `sudoku.fields[x][y] = f`. -/
def setF (g : Grid) (p : Pos) (f : SudokuField) : Grid :=
  ⟨g.val.modify (fun col => col.set p.2.val f) p.1.val, by
    obtain ⟨h1, h2⟩ := g.2
    refine ⟨by simp [h1], ?_⟩
    intro col hcol
    obtain ⟨j, hj, hcol⟩ := List.getElem_of_mem hcol
    rw [List.getElem_modify] at hcol
    split at hcol
    · rw [← hcol, List.length_set]
      exact h2 _ (List.getElem_mem _)
    · rw [← hcol]
      exact h2 _ (List.getElem_mem _)⟩

/-- Read one candidate flag, `field.possible_values[i]`. -/
def getFlag (f : SudokuField) (i : Nat) : Bool :=
  f.possible_values.getD i false

/-- `SudokuConstraint::has_value`: some field of the constraint has this solved value. -/
def has_value (c : SudokuConstraint) (g : Grid) (value : Int) : Bool :=
  c.fields.any (fun p => (getF g p).solved_value == value)

/-- `is_solved`: exactly one candidate flag is still set. -/
def is_solved (f : SudokuField) : Bool :=
  (f.possible_values.filter (fun b => b)).length == 1

/-- Write the solved value of a cell, keeping its candidate flags. -/
def setSolved (g : Grid) (p : Pos) (v : Int) : Grid :=
  setF g p { getF g p with solved_value := v }

/-- `field.possible_values.fill(false)`. -/
def clearAllF (g : Grid) (p : Pos) : Grid :=
  setF g p { getF g p with possible_values := (getF g p).possible_values.map (fun _ => false) }

/-- `field.possible_values[i] = false`. -/
def clearFlagF (g : Grid) (q : Pos) (i : Nat) : Grid :=
  setF g q { getF g q with possible_values := (getF g q).possible_values.set i false }

/-- First block of `solve_simple`'s per-cell body: naked-single promotion.
`none` models the `assert!(!constraint.has_value(..))` failing (and the
`.unwrap()` on the candidate search, which is unreachable under `is_solved`). -/
def nakedStep (c : SudokuConstraint) (g : Grid) (p : Pos) : Option Grid :=
  if (getF g p).solved_value = -1 ∧ is_solved (getF g p) = true then
    match (getF g p).possible_values.findIdx? (fun b => b) with
    | some i => if has_value c g (i : Int) then none
                else some (setSolved g p (i : Int))
    | none => none
  else some g

/-- Second block of `solve_simple`'s per-cell body: clear candidates of a solved cell. -/
def clearStep (g : Grid) (p : Pos) : Grid :=
  if (getF g p).solved_value ≠ -1 then clearAllF g p else g

/-- Third block of `solve_simple`'s per-cell body: clear the solved value's flag from
every field of the constraint.  Indexing `possible_values[solved_value as usize]`
panics (`none`) when the solved value is outside `0..9`. -/
def elimStep (c : SudokuConstraint) (g : Grid) (p : Pos) : Option Grid :=
  if (getF g p).solved_value ≠ -1 then
    if 0 ≤ (getF g p).solved_value ∧ (getF g p).solved_value < 9 then
      some (c.fields.foldl
        (fun g1 q => clearFlagF g1 q (getF g p).solved_value.toNat) g)
    else none
  else some g

/-- One visit of one cell inside one constraint in `solve_simple`'s first loop. -/
def stepCell (c : SudokuConstraint) (g : Grid) (p : Pos) : Option Grid :=
  (nakedStep c g p).bind (fun g1 => elimStep c (clearStep g1 p) p)

/-- Force-solve a cell to a value, clearing all its candidate flags. -/
def setSolvedClear (g : Grid) (p : Pos) (v : Int) : Grid :=
  setF g p { possible_values := (getF g p).possible_values.map (fun _ => false),
             solved_value := v }

/-- Hidden-single step of `solve_simple` for one size-9 constraint and one value. -/
def hiddenStep (g : Grid) (c : SudokuConstraint) (v : Nat) : Grid :=
  if has_value c g (v : Int) then g
  else if (c.fields.filter (fun q => getFlag (getF g q) v)).length = 1 then
    c.fields.foldl (fun g1 q =>
      if getFlag (getF g1 q) v then setSolvedClear g1 q (v : Int) else g1) g
  else g

/-- Pass A: `solve_simple`. -/
def solve_simple (cs : List SudokuConstraint) (g : Grid) : Option Grid :=
  (cs.foldlM (fun g1 (c : SudokuConstraint) =>
      c.fields.foldlM (fun g2 p => stepCell c g2 p) g1) g).map
    (fun g1 => (cs.filter (fun c : SudokuConstraint => c.fields.length == 9)).foldl
      (fun g2 c => (List.range 9).foldl (fun g3 v => hiddenStep g3 c v) g2) g1)

/-- The inverse index of `solve_spots_overlap`: all constraints containing a
coordinate, with multiplicity, in constraint-list order. -/
def inverseMap (cs : List SudokuConstraint) (p : Pos) : List SudokuConstraint :=
  cs.flatMap (fun c => (c.fields.filter (fun q => decide (q = p))).map (fun _ => c))

/-- Clear `number` from every field of the overlapping constraint that is not a
valid position of the anchoring constraint. -/
def eliminateOverlap (g : Grid) (vp : List Pos) (oc : SudokuConstraint) (number : Nat) : Grid :=
  (oc.fields.filter (fun q => !(vp.contains q))).foldl (fun g1 q => clearFlagF g1 q number) g

/-- Body of `solve_spots_overlap` for one size-9 constraint and one value. -/
def spotsStep (cs : List SudokuConstraint) (c : SudokuConstraint) (g : Grid) (number : Nat) :
    Grid :=
  if has_value c g (number : Int) then g
  else
    match c.fields.filter (fun p => getFlag (getF g p) number) with
    | [] => g
    | p0 :: rest =>
      ((inverseMap cs p0).filter (fun oc => oc.id != c.id && oc.fields.length == 9)).foldl
        (fun g1 oc =>
          if has_value oc g1 (number : Int) then g1
          else if rest.all (fun q => (inverseMap cs q).any (fun oc2 => oc2.id == oc.id)) then
            eliminateOverlap g1 (p0 :: rest) oc number
          else g1) g

/-- Pass B: `solve_spots_overlap`. -/
def solve_spots_overlap (cs : List SudokuConstraint) (g : Grid) : Grid :=
  (cs.filter (fun c => c.fields.length == 9)).foldl
    (fun g1 c => (List.range 9).foldl (fun g2 v => spotsStep cs c g2 v) g1) g

/-- `constrain_range`: clip a half-open range to `[mn, mx)`. -/
def constrain_range (s e mn mx : Int) : Int × Int := (max s mn, min e mx)

/-- The list of integers in the half-open range `[a, b)`. -/
def intRange (a b : Int) : List Int :=
  (List.range (b - a).toNat).map (fun k => a + Int.ofNat k)

def rangeToList (r : Int × Int) : List Int := intRange r.1 r.2

def mkFin9 (x : Int) (h : 0 ≤ x ∧ x < 9) : Fin 9 := ⟨x.toNat, by omega⟩

/-- A candidate-flag write with run-time-computed indices; `none` models the
panic of an out-of-bounds array access. -/
def clearFlagChecked (g : Grid) (x y v : Int) : Option Grid :=
  if hx : 0 ≤ x ∧ x < 9 then
    if hy : 0 ≤ y ∧ y < 9 then
      if 0 ≤ v ∧ v < 9 then
        some (clearFlagF g (mkFin9 x hx, mkFin9 y hy) v.toNat)
      else none
    else none
  else none

/-- Inner body of `solve_non_orthogonal` for one cell and one digit `v`: clear `v`
from the clipped column neighbours `(i-1..i+1, j)` and then from the clipped row
neighbours `(i, j-1..j+1)` — both ranges include the cell itself. -/
def passCV (g : Grid) (p : Pos) (v : Int) : Option Grid :=
  ((rangeToList (constrain_range ((p.1 : Int) - 1) ((p.1 : Int) + 2) 0 9)).foldlM
    (fun g2 ii => clearFlagChecked g2 ii (p.2 : Int) v) g).bind
  (fun g2 =>
    (rangeToList (constrain_range ((p.2 : Int) - 1) ((p.2 : Int) + 2) 0 9)).foldlM
      (fun g3 jj => clearFlagChecked g3 (p.1 : Int) jj v) g2)

/-- Body of `solve_non_orthogonal` for one grid cell. -/
def passCCell (g : Grid) (p : Pos) : Option Grid :=
  if (getF g p).solved_value = -1 then some g
  else
    (rangeToList
        (constrain_range ((getF g p).solved_value - 1) ((getF g p).solved_value + 2) 0 9)).foldlM
      (fun g1 v => passCV g1 p v) g

/-- Pass C: `solve_non_orthogonal`. -/
def solve_non_orthogonal (g : Grid) : Option Grid :=
  (List.finRange 9).foldlM (fun g1 i =>
    (List.finRange 9).foldlM (fun g2 j => passCCell g2 (i, j)) g1) g

/-- One round as driven by `on_draw`: pass A, then pass C, then pass B. -/
def roundStep (cs : List SudokuConstraint) (g : Grid) : Option Grid :=
  (solve_simple cs g).bind (fun g1 =>
    (solve_non_orthogonal g1).map (fun g2 => solve_spots_overlap cs g2))

/-- A 9×9 grid given by a function on positions. -/
def gridOfFun (f : Pos → SudokuField) : Grid :=
  ⟨(List.finRange 9).map (fun x => (List.finRange 9).map (fun y => f (x, y))), by
    constructor
    · simp
    · intro col hcol
      simp only [List.mem_map] at hcol
      obtain ⟨x, _, hx⟩ := hcol
      simp [← hx]⟩

/-- The grid state constructed by `main`: all cells unsolved with all nine
candidates, then `fields[3][6].solved_value = 2 - 1` without touching the flags. -/
def initialSudoku : Grid :=
  setSolved (gridOfFun (fun _ => { possible_values := List.replicate 9 true, solved_value := -1 }))
    ((3 : Fin 9), (6 : Fin 9)) 1


/-! ### Concrete instances used by the scenario claims -/

/-- An unsolved cell with all nine candidates set. -/
def allCandField : SudokuField :=
  { possible_values := List.replicate 9 true, solved_value := -1 }

/-- A cell solved to `v` with an empty candidate set. -/
def noCandField (v : Int) : SudokuField :=
  { possible_values := List.replicate 9 false, solved_value := v }

/-- A single size-9 region: the row `y = 0`. -/
def C3c : SudokuConstraint := ⟨0, (List.finRange 9).map (fun i => (i, (0 : Fin 9)))⟩

/-- Row 0 with cells `(0,0)..(7,0)` solved to internal values `0..7` (digits 1..8)
with empty candidate sets, cell `(8,0)` unsolved with all nine candidates. -/
def C3grid : Grid := gridOfFun (fun p =>
  if p.2 = 0 ∧ p.1 ≠ 8 then noCandField (p.1 : Int) else allCandField)

/-- Expected output: `(8,0)` solved to internal value `8` (digit 9), all row cells cleared. -/
def C3expected : Grid := gridOfFun (fun p =>
  if p.2 = 0 then noCandField (p.1 : Int) else allCandField)

/-- A scrambled assignment of the eight solved digits for a second C3 instance. -/
def C3perm : List Int := [3, 1, 4, 0, 7, 2, 6, 5]

def C3grid2 : Grid := gridOfFun (fun p =>
  if p.2 = 0 ∧ p.1.val < 8 then noCandField (C3perm.getD p.1.val 0) else allCandField)

def C3expected2 : Grid := gridOfFun (fun p =>
  if p.2 = 0 ∧ p.1.val < 8 then noCandField (C3perm.getD p.1.val 0)
  else if p.2 = 0 then noCandField 8 else allCandField)

/-- The state of `initialSudoku` after one run of pass C: flags for internal values
`0,1,2` are cleared at `(3,6)` and its four orthogonal neighbours; everything else
is untouched.  In particular `(3,6)` is still solved with six candidates left. -/
def C1afterPassC : Grid := gridOfFun (fun p =>
  if p = ((3 : Fin 9), (6 : Fin 9)) then
    { possible_values := List.replicate 3 false ++ List.replicate 6 true, solved_value := 1 }
  else if p = (2, 6) ∨ p = (4, 6) ∨ p = (3, 5) ∨ p = (3, 7) then
    { possible_values := List.replicate 3 false ++ List.replicate 6 true, solved_value := -1 }
  else allCandField)

/-- `Mono g' g`: the grid `g'` refines `g` — no candidate flag went from unset to
set, and no solved cell reverted to unsolved. -/
def Mono (g' g : Grid) : Prop :=
  (∀ p i, getFlag (getF g' p) i = true → getFlag (getF g p) i = true) ∧
  (∀ p, (getF g p).solved_value ≠ -1 → (getF g' p).solved_value ≠ -1)

/-- `SolvedEq g' g`: no solved value changed at all (used for the two passes that
only erase candidate flags). -/
def SolvedEq (g' g : Grid) : Prop :=
  ∀ p, (getF g' p).solved_value = (getF g p).solved_value

/-- Invariant I1 at one cell: a solved cell has an empty candidate set. -/
def ClearedAt (g : Grid) (p : Pos) : Prop :=
  (getF g p).solved_value ≠ -1 → ∀ i, getFlag (getF g p) i = false

/-- Invariant I1: every solved cell has an empty candidate set. -/
def InvariantOne (g : Grid) : Prop := ∀ p, ClearedAt g p

/-- Every cell's candidate array has exactly nine flags (the Rust `[bool; 9]` type). -/
def FieldsOK (g : Grid) : Prop := ∀ p, (getF g p).possible_values.length = 9

instance (g : Grid) : Decidable (FieldsOK g) := by
  unfold FieldsOK; infer_instance

/-- C6 scenario: `(4,4)` solved to digit 5 (internal value 4) with empty candidates,
everything else untouched. -/
def C6grid : Grid := gridOfFun (fun p =>
  if p = ((4 : Fin 9), (4 : Fin 9)) then noCandField 4 else allCandField)

/-- Expected C6 output: internal values `3,4,5` (digits 4,5,6) cleared at the four
orthogonal neighbours of `(4,4)`; all other cells untouched. -/
def C6expected : Grid := gridOfFun (fun p =>
  if p = ((4 : Fin 9), (4 : Fin 9)) then noCandField 4
  else if p = (3, 4) ∨ p = (5, 4) ∨ p = (4, 3) ∨ p = (4, 5) then
    { possible_values := [true, true, true, false, false, false, true, true, true],
      solved_value := -1 }
  else allCandField)

/-- C7 corner scenario: only `(0,0)` is solved (to `sv`), with empty candidates. -/
def C7grid (sv : Fin 9) : Grid := gridOfFun (fun p =>
  if p = ((0 : Fin 9), (0 : Fin 9)) then noCandField (sv : Int) else allCandField)

/-- Expected C7 output: only the two in-bounds neighbours `(1,0)` and `(0,1)` change,
losing the flags of the clipped digit range around `sv`. -/
def C7out (sv : Fin 9) : Grid := gridOfFun (fun p =>
  if p = ((0 : Fin 9), (0 : Fin 9)) then noCandField (sv : Int)
  else if p = (1, 0) ∨ p = (0, 1) then
    { possible_values := (List.range 9).map
        (fun w => !(decide ((sv : Int) - 1 ≤ (w : Int)) && decide ((w : Int) < (sv : Int) + 2))),
      solved_value := -1 }
  else allCandField)

/-- C4 witness grid: all cells unsolved; only `(0,0)` still carries candidate 5
within row 0. -/
def C4grid : Grid := gridOfFun (fun p =>
  if p = ((0 : Fin 9), (0 : Fin 9)) then allCandField
  else { possible_values := (List.replicate 9 true).set 5 false, solved_value := -1 })

/-- C5 witness: the column `x = 0` as a second size-9 region (distinct id). -/
def C5col : SudokuConstraint := ⟨9, (List.finRange 9).map (fun j => ((0 : Fin 9), j))⟩

/-- C5 witness grid: within row 0, only `(0,0)` still carries candidate 2. -/
def C5grid : Grid := gridOfFun (fun p =>
  if p.2 = 0 ∧ p.1 ≠ 0 then
    { possible_values := (List.replicate 9 true).set 2 false, solved_value := -1 }
  else allCandField)

/-- C8 demo grid: `(0,0)` is a naked single for internal value 5, but `(1,0)` in the
same row is already solved to 5, so the promotion's assertion fires. -/
def C8grid : Grid := gridOfFun (fun p =>
  if p = ((0 : Fin 9), (0 : Fin 9)) then
    { possible_values := (List.replicate 9 false).set 5 true, solved_value := -1 }
  else if p = ((1 : Fin 9), (0 : Fin 9)) then noCandField 5
  else allCandField)

/-- Invariant carried through Pass A's first loop in the end-to-end scenario: the
grid has well-shaped fields, every region cell other than `u` keeps its original
solved value with an empty candidate set, and `u` is either still unsolved and still
carrying candidate 8 (digit 9), or already solved to 8 with an empty candidate set. -/
def C3Inv (g gc : Grid) (c : SudokuConstraint) (u : Pos) : Prop :=
  FieldsOK gc ∧
  (∀ q ∈ c.fields, q ≠ u → (getF gc q).solved_value = (getF g q).solved_value ∧
    ∀ i, getFlag (getF gc q) i = false) ∧
  (((getF gc u).solved_value = -1 ∧ getFlag (getF gc u) 8 = true) ∨
   ((getF gc u).solved_value = 8 ∧ ∀ i, getFlag (getF gc u) i = false))

/-- After the visit of region cell `q`, the candidate for `q`'s original solved value
has been eliminated from the unsolved cell `u`. -/
def C3Done (g gc : Grid) (u q : Pos) : Prop :=
  q ≠ u → getFlag (getF gc u) (getF g q).solved_value.toNat = false

/-! ### Read-after-write lemmas -/

theorem col_length (g : Grid) (x : Fin 9) : (g.val.getD x.val []).length = 9 := by
  obtain ⟨h1, h2⟩ := g.2
  have hx : x.val < g.val.length := by omega
  have : g.val.getD x.val [] = g.val[x.val] := by
    simp [List.getD, List.getElem?_eq_getElem hx]
  rw [this]
  exact h2 _ (List.getElem_mem hx)

theorem getF_setF_same (g : Grid) (p : Pos) (f : SudokuField) :
    getF (setF g p f) p = f := by
  have hx : p.1.val < g.val.length := by have := g.2.1; omega
  have hcol : (setF g p f).val.getD p.1.val [] = (g.val.getD p.1.val []).set p.2.val f := by
    show (g.val.modify (fun col => col.set p.2.val f) p.1.val).getD p.1.val [] = _
    rw [List.getD_eq_getElem?_getD, List.getElem?_modify_eq,
      List.getElem?_eq_getElem hx, List.getD_eq_getElem?_getD, List.getElem?_eq_getElem hx]
    rfl
  have hy : p.2.val < (g.val.getD p.1.val []).length := by rw [col_length]; omega
  show ((setF g p f).val.getD p.1.val []).getD p.2.val defaultField = f
  rw [hcol, List.getD_eq_getElem?_getD, List.getElem?_set_self hy]
  rfl

theorem getF_setF_ne (g : Grid) (p : Pos) (f : SudokuField) (q : Pos) (h : q ≠ p) :
    getF (setF g p f) q = getF g q := by
  by_cases h1 : q.1 = p.1
  · have h2 : q.2.val ≠ p.2.val := by
      intro hv
      exact h (Prod.ext h1 (Fin.val_injective hv))
    show ((setF g p f).val.getD q.1.val []).getD q.2.val defaultField = _
    have hx : q.1.val < g.val.length := by have := g.2.1; omega
    have hcol : (setF g p f).val.getD q.1.val [] = (g.val.getD q.1.val []).set p.2.val f := by
      show (g.val.modify (fun col => col.set p.2.val f) p.1.val).getD q.1.val [] = _
      rw [h1, List.getD_eq_getElem?_getD, List.getElem?_modify_eq,
        List.getElem?_eq_getElem (by omega : p.1.val < g.val.length),
        List.getD_eq_getElem?_getD, List.getElem?_eq_getElem (by omega : p.1.val < g.val.length)]
      rfl
    rw [hcol, List.getD_eq_getElem?_getD, List.getElem?_set_ne (fun hv => h2 hv.symm),
      ← List.getD_eq_getElem?_getD]
    rfl
  · have h2 : p.1.val ≠ q.1.val := fun hv => h1 (Fin.val_injective hv).symm
    show ((setF g p f).val.getD q.1.val []).getD q.2.val defaultField = _
    have hcol : (setF g p f).val.getD q.1.val [] = g.val.getD q.1.val [] := by
      show (g.val.modify (fun col => col.set p.2.val f) p.1.val).getD q.1.val [] = _
      rw [List.getD_eq_getElem?_getD, List.getElem?_modify_ne _ _ h2,
        ← List.getD_eq_getElem?_getD]
    rw [hcol]
    rfl

/-! ### Candidate-flag lemmas -/

theorem getFlag_map_false (pv : List Bool) (j : Nat) :
    (pv.map (fun _ => false)).getD j false = false := by
  rw [List.getD_eq_getElem?_getD, List.getElem?_map]
  cases pv[j]? <;> simp

theorem getFlag_set_false_true (pv : List Bool) (i j : Nat) :
    (pv.set i false).getD j false = true → pv.getD j false = true := by
  by_cases h : i = j
  · subst h
    rcases Nat.lt_or_ge i pv.length with hlt | hge
    · rw [List.getD_eq_getElem?_getD, List.getElem?_set_self hlt]
      simp
    · rw [List.set_eq_of_length_le hge]
      exact id
  · rw [List.getD_eq_getElem?_getD, List.getElem?_set_ne h, ← List.getD_eq_getElem?_getD]
    exact id

theorem getFlag_set_false_ne (pv : List Bool) (i j : Nat) (h : j ≠ i) :
    (pv.set i false).getD j false = pv.getD j false := by
  rw [List.getD_eq_getElem?_getD, List.getElem?_set_ne (fun hv => h hv.symm),
    ← List.getD_eq_getElem?_getD]

theorem getFlag_set_false_self (pv : List Bool) (i : Nat) (h : i < pv.length) :
    (pv.set i false).getD i false = false := by
  rw [List.getD_eq_getElem?_getD, List.getElem?_set_self h]
  rfl

/-! ### Monotonicity framework -/

theorem mono_refl (g : Grid) : Mono g g :=
  ⟨fun _ _ h => h, fun _ h => h⟩

theorem mono_trans {g1 g2 g3 : Grid} (h12 : Mono g1 g2) (h23 : Mono g2 g3) : Mono g1 g3 :=
  ⟨fun p i h => h23.1 p i (h12.1 p i h), fun p h => h12.2 p (h23.2 p h)⟩

theorem solvedEq_refl (g : Grid) : SolvedEq g g := fun _ => rfl

theorem solvedEq_trans {g1 g2 g3 : Grid} (h12 : SolvedEq g1 g2) (h23 : SolvedEq g2 g3) :
    SolvedEq g1 g3 := fun p => (h12 p).trans (h23 p)

theorem mono_clearFlagF (g : Grid) (q : Pos) (i : Nat) : Mono (clearFlagF g q i) g := by
  constructor
  · intro r j h
    by_cases hr : r = q
    · subst hr
      rw [clearFlagF, getF_setF_same] at h
      exact getFlag_set_false_true _ _ _ h
    · rwa [clearFlagF, getF_setF_ne _ _ _ _ hr] at h
  · intro r h
    by_cases hr : r = q
    · subst hr
      rw [clearFlagF, getF_setF_same]
      exact h
    · rwa [clearFlagF, getF_setF_ne _ _ _ _ hr]

theorem solvedEq_clearFlagF (g : Grid) (q : Pos) (i : Nat) : SolvedEq (clearFlagF g q i) g := by
  intro r
  by_cases hr : r = q
  · subst hr
    rw [clearFlagF, getF_setF_same]
  · rw [clearFlagF, getF_setF_ne _ _ _ _ hr]

theorem mono_clearAllF (g : Grid) (p : Pos) : Mono (clearAllF g p) g := by
  constructor
  · intro r j h
    by_cases hr : r = p
    · subst hr
      rw [clearAllF, getF_setF_same] at h
      rw [getFlag] at h
      simp only [getFlag_map_false] at h
      cases h
    · rwa [clearAllF, getF_setF_ne _ _ _ _ hr] at h
  · intro r h
    by_cases hr : r = p
    · subst hr
      rw [clearAllF, getF_setF_same]
      exact h
    · rwa [clearAllF, getF_setF_ne _ _ _ _ hr]

theorem mono_setSolvedClear (g : Grid) (p : Pos) (v : Int) (hv : v ≠ -1) :
    Mono (setSolvedClear g p v) g := by
  constructor
  · intro r j h
    by_cases hr : r = p
    · subst hr
      rw [setSolvedClear, getF_setF_same] at h
      rw [getFlag] at h
      simp only [getFlag_map_false] at h
      cases h
    · rwa [setSolvedClear, getF_setF_ne _ _ _ _ hr] at h
  · intro r h
    by_cases hr : r = p
    · subst hr
      rw [setSolvedClear, getF_setF_same]
      exact hv
    · rwa [setSolvedClear, getF_setF_ne _ _ _ _ hr]

theorem mono_setSolved (g : Grid) (p : Pos) (v : Int) (hv : v ≠ -1) :
    Mono (setSolved g p v) g := by
  constructor
  · intro r j h
    by_cases hr : r = p
    · subst hr
      rwa [setSolved, getF_setF_same] at h
    · rwa [setSolved, getF_setF_ne _ _ _ _ hr] at h
  · intro r h
    by_cases hr : r = p
    · subst hr
      rw [setSolved, getF_setF_same]
      exact hv
    · rwa [setSolved, getF_setF_ne _ _ _ _ hr]

/-! ### Generic fold lemmas -/

theorem foldlM_some_pres {α β : Type} (f : β → α → Option β) (P : β → Prop) :
    ∀ (l : List α), (∀ b a b', a ∈ l → f b a = some b' → P b → P b') →
      ∀ b b', l.foldlM f b = some b' → P b → P b'
  | [], _, b, b', hfold, hP => by
      simp only [List.foldlM_nil] at hfold
      cases hfold
      exact hP
  | a :: l, hf, b, b', hfold, hP => by
      simp only [List.foldlM_cons] at hfold
      cases h1 : f b a with
      | none => rw [h1] at hfold; cases hfold
      | some b1 =>
          rw [h1] at hfold
          exact foldlM_some_pres f P l
            (fun b a b' ha => hf b a b' (List.mem_cons_of_mem _ ha))
            b1 b' hfold (hf b a b1 (List.mem_cons_self _ _) h1 hP)

theorem foldl_pres {α β : Type} (f : β → α → β) (P : β → Prop) :
    ∀ (l : List α), (∀ b a, a ∈ l → P b → P (f b a)) → ∀ b, P b → P (l.foldl f b)
  | [], _, b, hP => hP
  | a :: l, hf, b, hP => by
      simp only [List.foldl_cons]
      exact foldl_pres f P l (fun b a ha => hf b a (List.mem_cons_of_mem _ ha)) (f b a)
        (hf b a (List.mem_cons_self _ _) hP)

theorem foldlM_estab {α β : Type} (f : β → α → Option β) (Q : β → α → Prop) :
    ∀ (l : List α),
      (∀ b a b', a ∈ l → f b a = some b' → ∀ x, Q b x → Q b' x) →
      (∀ b a b', a ∈ l → f b a = some b' → Q b' a) →
      ∀ b b', l.foldlM f b = some b' → (∀ x, Q b x → Q b' x) ∧ (∀ a ∈ l, Q b' a)
  | [], _, _, b, b', hfold => by
      simp only [List.foldlM_nil] at hfold
      cases hfold
      exact ⟨fun _ h => h, fun a ha => nomatch ha⟩
  | a :: l, hpres, hest, b, b', hfold => by
      simp only [List.foldlM_cons] at hfold
      cases h1 : f b a with
      | none => rw [h1] at hfold; cases hfold
      | some b1 =>
          rw [h1] at hfold
          have ih := foldlM_estab f Q l
            (fun b a b' ha => hpres b a b' (List.mem_cons_of_mem _ ha))
            (fun b a b' ha => hest b a b' (List.mem_cons_of_mem _ ha))
            b1 b' hfold
          refine ⟨fun x hx => ih.1 x (hpres b a b1 (List.mem_cons_self _ _) h1 x hx), ?_⟩
          intro x hx
          rcases List.mem_cons.mp hx with hx | hx
          · subst hx
            exact ih.1 x (hest b x b1 (List.mem_cons_self _ _) h1)
          · exact ih.2 x hx

theorem foldl_estab {α β : Type} (f : β → α → β) (Q : β → α → Prop) :
    ∀ (l : List α),
      (∀ b a, a ∈ l → ∀ x, Q b x → Q (f b a) x) →
      (∀ b a, a ∈ l → Q (f b a) a) →
      ∀ b, (∀ x, Q b x → Q (l.foldl f b) x) ∧ (∀ a ∈ l, Q (l.foldl f b) a)
  | [], _, _, b => ⟨fun _ h => h, fun a ha => nomatch ha⟩
  | a :: l, hpres, hest, b => by
      simp only [List.foldl_cons]
      have ih := foldl_estab f Q l
        (fun b a ha => hpres b a (List.mem_cons_of_mem _ ha))
        (fun b a ha => hest b a (List.mem_cons_of_mem _ ha)) (f b a)
      refine ⟨fun x hx => ih.1 x (hpres b a (List.mem_cons_self _ _) x hx), ?_⟩
      intro x hx
      rcases List.mem_cons.mp hx with hx | hx
      · subst hx
        exact ih.1 x (hest b x (List.mem_cons_self _ _))
      · exact ih.2 x hx

theorem foldlM_isSome {α β : Type} (f : β → α → Option β) :
    ∀ (l : List α), (∀ b a, a ∈ l → (f b a).isSome = true) →
      ∀ b, (l.foldlM f b).isSome = true
  | [], _, b => rfl
  | a :: l, hf, b => by
      simp only [List.foldlM_cons]
      cases h1 : f b a with
      | none =>
          have := hf b a (List.mem_cons_self _ _)
          rw [h1] at this
          cases this
      | some b1 =>
          exact foldlM_isSome f l (fun b a ha => hf b a (List.mem_cons_of_mem _ ha)) b1

/-! ### Integer-range lemmas -/

theorem mem_intRange {a b v : Int} : v ∈ intRange a b ↔ a ≤ v ∧ v < b := by
  constructor
  · intro h
    obtain ⟨k, hk, hv⟩ := List.mem_map.mp h
    rw [List.mem_range] at hk
    simp only [Int.ofNat_eq_coe] at hv
    omega
  · intro h
    refine List.mem_map.mpr ⟨(v - a).toNat, ?_, by simp only [Int.ofNat_eq_coe]; omega⟩
    rw [List.mem_range]
    omega

theorem mem_rangeToList_constrain {s e v : Int} :
    v ∈ rangeToList (constrain_range s e 0 9) → 0 ≤ v ∧ v < 9 := by
  unfold rangeToList constrain_range
  intro h
  rw [mem_intRange] at h
  simp only [le_max_iff, min_le_iff] at h
  omega

/-! ### Monotonicity of the individual steps -/

theorem mono_nakedStep (c : SudokuConstraint) (g : Grid) (p : Pos) (g' : Grid)
    (h : nakedStep c g p = some g') : Mono g' g := by
  unfold nakedStep at h
  split at h
  · split at h
    · split at h
      · cases h
      · cases h
        exact mono_setSolved _ _ _ (by omega)
    · cases h
  · cases h
    exact mono_refl _

theorem mono_clearStep (g : Grid) (p : Pos) : Mono (clearStep g p) g := by
  unfold clearStep
  split
  · exact mono_clearAllF _ _
  · exact mono_refl _

theorem mono_elimStep (c : SudokuConstraint) (g : Grid) (p : Pos) (g' : Grid)
    (h : elimStep c g p = some g') : Mono g' g := by
  unfold elimStep at h
  split at h
  · split at h
    · cases h
      exact foldl_pres _ (fun gx => Mono gx g) _
        (fun gx q _ hgx => mono_trans (mono_clearFlagF gx q _) hgx) g (mono_refl g)
    · cases h
  · cases h
    exact mono_refl _

theorem mono_stepCell (c : SudokuConstraint) (g : Grid) (p : Pos) (g' : Grid)
    (h : stepCell c g p = some g') : Mono g' g := by
  unfold stepCell at h
  rw [Option.bind_eq_some] at h
  obtain ⟨g1, h1, h2⟩ := h
  exact mono_trans (mono_trans (mono_elimStep _ _ _ _ h2) (mono_clearStep g1 p))
    (mono_nakedStep _ _ _ _ h1)

theorem mono_hiddenStep (g : Grid) (c : SudokuConstraint) (v : Nat) :
    Mono (hiddenStep g c v) g := by
  unfold hiddenStep
  split
  · exact mono_refl _
  · split
    · refine foldl_pres _ (fun gx => Mono gx g) _ ?_ g (mono_refl g)
      intro gx q _ hgx
      split
      · exact mono_trans (mono_setSolvedClear gx q _ (by omega)) hgx
      · exact hgx
    · exact mono_refl _

theorem mono_solve_simple (cs : List SudokuConstraint) (g : Grid) (g' : Grid)
    (h : solve_simple cs g = some g') : Mono g' g := by
  unfold solve_simple at h
  rw [Option.map_eq_some'] at h
  obtain ⟨g1, h1, h2⟩ := h
  have hm1 : Mono g1 g := by
    refine foldlM_some_pres _ (fun gx => Mono gx g) cs ?_ g g1 h1 (mono_refl g)
    intro gx c gy _ hfold hgx
    refine mono_trans (foldlM_some_pres _ (fun gz => Mono gz gx) c.fields ?_ gx gy hfold
      (mono_refl gx)) hgx
    intro gz p gw _ hstep hgz
    exact mono_trans (mono_stepCell c gz p gw hstep) hgz
  have hm2 : Mono g' g1 := by
    rw [← h2]
    refine foldl_pres _ (fun gx => Mono gx g1) _ ?_ g1 (mono_refl g1)
    intro gx c _ hgx
    refine mono_trans (foldl_pres _ (fun gz => Mono gz gx) _ ?_ gx (mono_refl gx)) hgx
    intro gz v _ hgz
    exact mono_trans (mono_hiddenStep gz c v) hgz
  exact mono_trans hm2 hm1

theorem mono_eliminateOverlap (g : Grid) (vp : List Pos) (oc : SudokuConstraint) (n : Nat) :
    Mono (eliminateOverlap g vp oc n) g := by
  unfold eliminateOverlap
  exact foldl_pres _ (fun gx => Mono gx g) _
    (fun gx q _ hgx => mono_trans (mono_clearFlagF gx q _) hgx) g (mono_refl g)

theorem solvedEq_eliminateOverlap (g : Grid) (vp : List Pos) (oc : SudokuConstraint) (n : Nat) :
    SolvedEq (eliminateOverlap g vp oc n) g := by
  unfold eliminateOverlap
  exact foldl_pres _ (fun gx => SolvedEq gx g) _
    (fun gx q _ hgx => solvedEq_trans (solvedEq_clearFlagF gx q _) hgx) g (solvedEq_refl g)

theorem mono_spotsStep (cs : List SudokuConstraint) (c : SudokuConstraint) (g : Grid) (n : Nat) :
    Mono (spotsStep cs c g n) g := by
  unfold spotsStep
  split
  · exact mono_refl _
  · split
    · exact mono_refl _
    · refine foldl_pres _ (fun gx => Mono gx g) _ ?_ g (mono_refl g)
      intro gx oc _ hgx
      split
      · exact hgx
      · split
        · exact mono_trans (mono_eliminateOverlap gx _ oc n) hgx
        · exact hgx

theorem solvedEq_spotsStep (cs : List SudokuConstraint) (c : SudokuConstraint) (g : Grid)
    (n : Nat) : SolvedEq (spotsStep cs c g n) g := by
  unfold spotsStep
  split
  · exact solvedEq_refl _
  · split
    · exact solvedEq_refl _
    · refine foldl_pres _ (fun gx => SolvedEq gx g) _ ?_ g (solvedEq_refl g)
      intro gx oc _ hgx
      split
      · exact hgx
      · split
        · exact solvedEq_trans (solvedEq_eliminateOverlap gx _ oc n) hgx
        · exact hgx

theorem mono_solve_spots_overlap (cs : List SudokuConstraint) (g : Grid) :
    Mono (solve_spots_overlap cs g) g := by
  unfold solve_spots_overlap
  refine foldl_pres _ (fun gx => Mono gx g) _ ?_ g (mono_refl g)
  intro gx c _ hgx
  refine mono_trans (foldl_pres _ (fun gz => Mono gz gx) _ ?_ gx (mono_refl gx)) hgx
  intro gz v _ hgz
  exact mono_trans (mono_spotsStep cs c gz v) hgz

theorem solvedEq_solve_spots_overlap (cs : List SudokuConstraint) (g : Grid) :
    SolvedEq (solve_spots_overlap cs g) g := by
  unfold solve_spots_overlap
  refine foldl_pres _ (fun gx => SolvedEq gx g) _ ?_ g (solvedEq_refl g)
  intro gx c _ hgx
  refine solvedEq_trans (foldl_pres _ (fun gz => SolvedEq gz gx) _ ?_ gx (solvedEq_refl gx)) hgx
  intro gz v _ hgz
  exact solvedEq_trans (solvedEq_spotsStep cs c gz v) hgz

theorem mono_clearFlagChecked (g : Grid) (x y v : Int) (g' : Grid)
    (h : clearFlagChecked g x y v = some g') : Mono g' g := by
  unfold clearFlagChecked at h
  split at h
  · split at h
    · split at h
      · cases h
        exact mono_clearFlagF _ _ _
      · cases h
    · cases h
  · cases h

theorem solvedEq_clearFlagChecked (g : Grid) (x y v : Int) (g' : Grid)
    (h : clearFlagChecked g x y v = some g') : SolvedEq g' g := by
  unfold clearFlagChecked at h
  split at h
  · split at h
    · split at h
      · cases h
        exact solvedEq_clearFlagF _ _ _
      · cases h
    · cases h
  · cases h

theorem mono_passCV (g : Grid) (p : Pos) (v : Int) (g' : Grid)
    (h : passCV g p v = some g') : Mono g' g := by
  unfold passCV at h
  rw [Option.bind_eq_some] at h
  obtain ⟨gz, hz1, hz2⟩ := h
  have m1 : Mono gz g := by
    refine foldlM_some_pres _ (fun gw => Mono gw g) _ ?_ g gz hz1 (mono_refl g)
    intro gw ii gu _ hw hgw
    exact mono_trans (mono_clearFlagChecked _ _ _ _ _ hw) hgw
  have m2 : Mono g' gz := by
    refine foldlM_some_pres _ (fun gw => Mono gw gz) _ ?_ gz g' hz2 (mono_refl gz)
    intro gw jj gu _ hw hgw
    exact mono_trans (mono_clearFlagChecked _ _ _ _ _ hw) hgw
  exact mono_trans m2 m1

theorem solvedEq_passCV (g : Grid) (p : Pos) (v : Int) (g' : Grid)
    (h : passCV g p v = some g') : SolvedEq g' g := by
  unfold passCV at h
  rw [Option.bind_eq_some] at h
  obtain ⟨gz, hz1, hz2⟩ := h
  have m1 : SolvedEq gz g := by
    refine foldlM_some_pres _ (fun gw => SolvedEq gw g) _ ?_ g gz hz1 (solvedEq_refl g)
    intro gw ii gu _ hw hgw
    exact solvedEq_trans (solvedEq_clearFlagChecked _ _ _ _ _ hw) hgw
  have m2 : SolvedEq g' gz := by
    refine foldlM_some_pres _ (fun gw => SolvedEq gw gz) _ ?_ gz g' hz2 (solvedEq_refl gz)
    intro gw jj gu _ hw hgw
    exact solvedEq_trans (solvedEq_clearFlagChecked _ _ _ _ _ hw) hgw
  exact solvedEq_trans m2 m1

theorem mono_passCCell (g : Grid) (p : Pos) (g' : Grid)
    (h : passCCell g p = some g') : Mono g' g := by
  unfold passCCell at h
  split at h
  · cases h
    exact mono_refl _
  · refine foldlM_some_pres _ (fun gx => Mono gx g) _ ?_ g g' h (mono_refl g)
    intro gx v gy _ hstep hgx
    exact mono_trans (mono_passCV gx p v gy hstep) hgx

theorem solvedEq_passCCell (g : Grid) (p : Pos) (g' : Grid)
    (h : passCCell g p = some g') : SolvedEq g' g := by
  unfold passCCell at h
  split at h
  · cases h
    exact solvedEq_refl _
  · refine foldlM_some_pres _ (fun gx => SolvedEq gx g) _ ?_ g g' h (solvedEq_refl g)
    intro gx v gy _ hstep hgx
    exact solvedEq_trans (solvedEq_passCV gx p v gy hstep) hgx

theorem mono_solve_non_orthogonal (g : Grid) (g' : Grid)
    (h : solve_non_orthogonal g = some g') : Mono g' g := by
  unfold solve_non_orthogonal at h
  refine foldlM_some_pres _ (fun gx => Mono gx g) _ ?_ g g' h (mono_refl g)
  intro gx i gy _ hfold hgx
  refine mono_trans (foldlM_some_pres _ (fun gz => Mono gz gx) _ ?_ gx gy hfold (mono_refl gx)) hgx
  intro gz j gw _ hstep hgz
  exact mono_trans (mono_passCCell gz (i, j) gw hstep) hgz

theorem solvedEq_solve_non_orthogonal (g : Grid) (g' : Grid)
    (h : solve_non_orthogonal g = some g') : SolvedEq g' g := by
  unfold solve_non_orthogonal at h
  refine foldlM_some_pres _ (fun gx => SolvedEq gx g) _ ?_ g g' h (solvedEq_refl g)
  intro gx i gy _ hfold hgx
  refine solvedEq_trans (foldlM_some_pres _ (fun gz => SolvedEq gz gx) _ ?_ gx gy hfold
    (solvedEq_refl gx)) hgx
  intro gz j gw _ hstep hgz
  exact solvedEq_trans (solvedEq_passCCell gz (i, j) gw hstep) hgz

/-! ### Pass C never goes out of bounds -/

theorem clearFlagChecked_isSome (g : Grid) (x y v : Int)
    (hx : 0 ≤ x ∧ x < 9) (hy : 0 ≤ y ∧ y < 9) (hv : 0 ≤ v ∧ v < 9) :
    (clearFlagChecked g x y v).isSome = true := by
  unfold clearFlagChecked
  rw [dif_pos hx, dif_pos hy, if_pos hv]
  rfl

theorem passCV_isSome (g : Grid) (p : Pos) (v : Int) (hv : 0 ≤ v ∧ v < 9) :
    (passCV g p v).isSome = true := by
  unfold passCV
  have hy : 0 ≤ (p.2.val : Int) ∧ (p.2.val : Int) < 9 := by
    have := p.2.isLt
    omega
  have hx : 0 ≤ (p.1.val : Int) ∧ (p.1.val : Int) < 9 := by
    have := p.1.isLt
    omega
  have h1 : ((rangeToList (constrain_range ((p.1 : Int) - 1) ((p.1 : Int) + 2) 0 9)).foldlM
      (fun g2 ii => clearFlagChecked g2 ii (p.2 : Int) v) g).isSome = true := by
    refine foldlM_isSome _ _ ?_ g
    intro g2 ii hii
    exact clearFlagChecked_isSome g2 ii _ v (mem_rangeToList_constrain hii) hy hv
  rw [Option.isSome_iff_exists] at h1
  obtain ⟨g2, h2⟩ := h1
  rw [h2]
  show ((some g2).bind _).isSome = true
  rw [Option.some_bind]
  refine foldlM_isSome _ _ ?_ g2
  intro g3 jj hjj
  exact clearFlagChecked_isSome g3 _ jj v hx (mem_rangeToList_constrain hjj) hv

theorem passCCell_isSome (g : Grid) (p : Pos) : (passCCell g p).isSome = true := by
  unfold passCCell
  split
  · rfl
  · refine foldlM_isSome _ _ ?_ g
    intro g1 v hv
    exact passCV_isSome g1 p v (mem_rangeToList_constrain hv)

theorem solve_non_orthogonal_isSome (g : Grid) : (solve_non_orthogonal g).isSome = true := by
  unfold solve_non_orthogonal
  refine foldlM_isSome _ _ ?_ g
  intro g1 i _
  refine foldlM_isSome _ _ ?_ g1
  intro g2 j _
  exact passCCell_isSome g2 (i, j)

/-! ### Invariant I1 machinery -/

theorem clearedAt_of_mono {g g' : Grid} (p : Pos) (hm : Mono g' g) (hs : SolvedEq g' g)
    (hc : ClearedAt g p) : ClearedAt g' p := by
  intro h i
  have hsv : (getF g p).solved_value ≠ -1 := by rw [← hs p]; exact h
  cases hb : getFlag (getF g' p) i with
  | false => rfl
  | true =>
      have := hm.1 p i hb
      rw [hc hsv i] at this
      cases this

theorem invariantOne_of_mono {g g' : Grid} (hm : Mono g' g) (hs : SolvedEq g' g)
    (h : InvariantOne g) : InvariantOne g' :=
  fun p => clearedAt_of_mono p hm hs (h p)

theorem solvedEq_elimStep (c : SudokuConstraint) (g : Grid) (p : Pos) (g' : Grid)
    (h : elimStep c g p = some g') : SolvedEq g' g := by
  unfold elimStep at h
  split at h
  · split at h
    · cases h
      exact foldl_pres _ (fun gx => SolvedEq gx g) _
        (fun gx q _ hgx => solvedEq_trans (solvedEq_clearFlagF gx q _) hgx) g (solvedEq_refl g)
    · cases h
  · cases h
    exact solvedEq_refl _

theorem clearedAt_clearStep (g : Grid) (p : Pos) : ClearedAt (clearStep g p) p := by
  intro hs i
  unfold clearStep at hs ⊢
  by_cases h : (getF g p).solved_value ≠ -1
  · rw [if_pos h]
    unfold clearAllF
    rw [getF_setF_same]
    exact getFlag_map_false _ _
  · rw [if_neg h] at hs
    exact absurd hs h

theorem getF_clearStep_ne (g : Grid) (p q : Pos) (hq : q ≠ p) :
    getF (clearStep g p) q = getF g q := by
  unfold clearStep
  split
  · unfold clearAllF
    rw [getF_setF_ne _ _ _ _ hq]
  · rfl

theorem getF_nakedStep_ne (c : SudokuConstraint) (g : Grid) (p : Pos) (g' : Grid)
    (h : nakedStep c g p = some g') (q : Pos) (hq : q ≠ p) : getF g' q = getF g q := by
  unfold nakedStep at h
  split at h
  · split at h
    · split at h
      · cases h
      · cases h
        unfold setSolved
        rw [getF_setF_ne _ _ _ _ hq]
    · cases h
  · cases h
    rfl

theorem clearedAt_stepCell (c : SudokuConstraint) (g : Grid) (p : Pos) (g' : Grid)
    (h : stepCell c g p = some g') : ClearedAt g' p := by
  unfold stepCell at h
  rw [Option.bind_eq_some] at h
  obtain ⟨g1, h1, h2⟩ := h
  exact clearedAt_of_mono p (mono_elimStep _ _ _ _ h2) (solvedEq_elimStep _ _ _ _ h2)
    (clearedAt_clearStep g1 p)

theorem stepCell_solved_ne (c : SudokuConstraint) (g : Grid) (p : Pos) (g' : Grid)
    (h : stepCell c g p = some g') (q : Pos) (hq : q ≠ p) :
    (getF g' q).solved_value = (getF g q).solved_value := by
  unfold stepCell at h
  rw [Option.bind_eq_some] at h
  obtain ⟨g1, h1, h2⟩ := h
  rw [solvedEq_elimStep _ _ _ _ h2 q, getF_clearStep_ne g1 p q hq, getF_nakedStep_ne _ _ _ _ h1 q hq]

theorem clearedAt_pres_stepCell (c : SudokuConstraint) (g : Grid) (p : Pos) (g' : Grid)
    (h : stepCell c g p = some g') (q : Pos) (hc : ClearedAt g q) : ClearedAt g' q := by
  by_cases hq : q = p
  · subst hq
    exact clearedAt_stepCell c g q g' h
  · intro hs i
    have hsv : (getF g q).solved_value ≠ -1 := by
      rw [← stepCell_solved_ne c g p g' h q hq]
      exact hs
    cases hb : getFlag (getF g' q) i with
    | false => rfl
    | true =>
        have := (mono_stepCell c g p g' h).1 q i hb
        rw [hc hsv i] at this
        cases this

theorem clearedAt_setSolvedClear (g : Grid) (p : Pos) (v : Int) :
    ClearedAt (setSolvedClear g p v) p := by
  intro _ i
  unfold setSolvedClear
  rw [getF_setF_same]
  exact getFlag_map_false _ _

theorem clearedAt_pres_hiddenStep (g : Grid) (c : SudokuConstraint) (v : Nat) (q : Pos)
    (hc : ClearedAt g q) : ClearedAt (hiddenStep g c v) q := by
  unfold hiddenStep
  split
  · exact hc
  · split
    · refine foldl_pres _ (fun gx => ClearedAt gx q) _ ?_ g hc
      intro gx r _ hgx
      split
      · by_cases hq : q = r
        · subst hq
          exact clearedAt_setSolvedClear gx q _
        · intro hs i
          unfold setSolvedClear at hs ⊢
          rw [getF_setF_ne _ _ _ _ hq] at hs ⊢
          exact hgx hs i
      · exact hgx
    · exact hc

theorem solve_simple_cleared (cs : List SudokuConstraint) (g : Grid) (g' : Grid)
    (h : solve_simple cs g = some g') : ∀ c ∈ cs, ∀ p ∈ c.fields, ClearedAt g' p := by
  unfold solve_simple at h
  rw [Option.map_eq_some'] at h
  obtain ⟨g1, h1, h2⟩ := h
  have inner_pres : ∀ (c : SudokuConstraint) (gx gy : Grid),
      c.fields.foldlM (fun g2 p => stepCell c g2 p) gx = some gy →
      ∀ q, ClearedAt gx q → ClearedAt gy q := by
    intro c gx gy hfold q hq
    exact foldlM_some_pres _ (fun gz => ClearedAt gz q) _
      (fun gz p gw _ hstep hgz => clearedAt_pres_stepCell c gz p gw hstep q hgz)
      gx gy hfold hq
  have inner_est : ∀ (c : SudokuConstraint) (gx gy : Grid),
      c.fields.foldlM (fun g2 p => stepCell c g2 p) gx = some gy →
      ∀ p ∈ c.fields, ClearedAt gy p := by
    intro c gx gy hfold
    exact (foldlM_estab _ (fun gz p => ClearedAt gz p) c.fields
      (fun gz p gw _ hstep q hgz => clearedAt_pres_stepCell c gz p gw hstep q hgz)
      (fun gz p gw _ hstep => clearedAt_stepCell c gz p gw hstep)
      gx gy hfold).2
  have main := foldlM_estab _ (fun gx (c : SudokuConstraint) => ∀ p ∈ c.fields, ClearedAt gx p)
    cs
    (fun gx c gy _ hfold c2 hc2 p hp => inner_pres c gx gy hfold p (hc2 p hp))
    (fun gx c gy _ hfold => inner_est c gx gy hfold)
    g g1 h1
  intro c hc p hp
  have hP1 : ClearedAt g1 p := main.2 c hc p hp
  rw [← h2]
  refine foldl_pres _ (fun gx => ClearedAt gx p) _ ?_ g1 hP1
  intro gx c2 _ hgx
  refine foldl_pres _ (fun gz => ClearedAt gz p) _ ?_ gx hgx
  intro gz v _ hgz
  exact clearedAt_pres_hiddenStep gz c2 v p hgz

/-! ### Claim theorems -/

/-- C1 (amended): the claim that I1 holds after *any* single pass is false — passes B
and C never clear a solved cell's left-over candidates.  What holds is: after Pass A
(`solve_simple`) succeeds, every cell belonging to at least one supplied region that
is solved has an empty candidate set; and Passes B (`solve_spots_overlap`) and C
(`solve_non_orthogonal`) preserve Invariant I1 when it already holds, since they only
erase candidate flags and never change a solved value. -/
theorem C1_I1_after_each_pass :
    (∀ (cs : List SudokuConstraint) (g g' : Grid), solve_simple cs g = some g' →
      ∀ c ∈ cs, ∀ p ∈ c.fields,
        (getF g' p).solved_value ≠ -1 → ∀ i, getFlag (getF g' p) i = false) ∧
    (∀ (cs : List SudokuConstraint) (g : Grid),
      InvariantOne g → InvariantOne (solve_spots_overlap cs g)) ∧
    (∀ (g g' : Grid), solve_non_orthogonal g = some g' → InvariantOne g → InvariantOne g') := by
  refine ⟨?_, ?_, ?_⟩
  · intro cs g g' h c hc p hp
    exact solve_simple_cleared cs g g' h c hc p hp
  · intro cs g h
    exact invariantOne_of_mono (mono_solve_spots_overlap cs g)
      (solvedEq_solve_spots_overlap cs g) h
  · intro g g' h hI
    exact invariantOne_of_mono (mono_solve_non_orthogonal g g' h)
      (solvedEq_solve_non_orthogonal g g' h) hI

theorem C1_witness : getFlag (getF C3expected ((8 : Fin 9), (0 : Fin 9))) 5 = false :=
  C1_I1_after_each_pass.1 [C3c] C3grid C3expected (by decide) C3c (by decide)
    ((8 : Fin 9), (0 : Fin 9)) (by decide) (by decide) 5

/-- C1 counterexample: in `main`'s initial state, `(3,6)` is solved (internal value 1,
digit 2) with all nine candidate flags set.  Pass C completes on this state, yet the
solved cell keeps candidate flag 8 (digit 9) set, so Invariant I1 does not hold after
that pass. -/
theorem C1_counterexample :
    solve_non_orthogonal initialSudoku = some C1afterPassC ∧
    (getF C1afterPassC ((3 : Fin 9), (6 : Fin 9))).solved_value = 1 ∧
    getFlag (getF C1afterPassC ((3 : Fin 9), (6 : Fin 9))) 8 = true := by decide

/-- C2: all three passes are monotone — a pass that completes never turns a candidate
flag from unset to set and never reverts a solved cell to unsolved; consequently the
same holds across one whole round (Pass A, then Pass C, then Pass B, the order used
by `on_draw`). -/
theorem C2_monotone :
    (∀ (cs : List SudokuConstraint) (g g' : Grid), solve_simple cs g = some g' →
      Mono g' g) ∧
    (∀ (g g' : Grid), solve_non_orthogonal g = some g' → Mono g' g) ∧
    (∀ (cs : List SudokuConstraint) (g : Grid), Mono (solve_spots_overlap cs g) g) ∧
    (∀ (cs : List SudokuConstraint) (g g' : Grid), roundStep cs g = some g' →
      Mono g' g) := by
  refine ⟨mono_solve_simple, mono_solve_non_orthogonal, mono_solve_spots_overlap, ?_⟩
  intro cs g g' h
  unfold roundStep at h
  rw [Option.bind_eq_some] at h
  obtain ⟨g1, h1, h2⟩ := h
  rw [Option.map_eq_some'] at h2
  obtain ⟨g2, h2, h3⟩ := h2
  rw [← h3]
  exact mono_trans
    (mono_trans (mono_solve_spots_overlap cs g2) (mono_solve_non_orthogonal g1 g2 h2))
    (mono_solve_simple cs g g1 h1)

theorem C2_witness : getFlag (getF C3grid ((0 : Fin 9), (1 : Fin 9))) 0 = true :=
  (C2_monotone.1 [C3c] C3grid C3expected (by decide)).1 ((0 : Fin 9), (1 : Fin 9)) 0 (by decide)

/-- C9: the grid built by `main` starts all-unsolved with all nine candidates per
cell, and the hard-coded clue writes `solved_value = 2 - 1` at `(3,6)` without
clearing that cell's candidates: before the first pass there is a solved cell whose
candidate set is still full, exhibiting the violation of Invariant I1. -/
theorem C9_initial_state :
    (getF initialSudoku ((3 : Fin 9), (6 : Fin 9))).solved_value = 1 ∧
    (∀ i : Fin 9, getFlag (getF initialSudoku ((3 : Fin 9), (6 : Fin 9))) i.val = true) ∧
    (∀ p : Pos, getF initialSudoku p =
      if p = ((3 : Fin 9), (6 : Fin 9)) then
        { possible_values := List.replicate 9 true, solved_value := 1 }
      else allCandField) := by
  decide

/-! ### Field shape and fold splitting -/

theorem fieldsOK_setF (g : Grid) (p : Pos) (f : SudokuField)
    (hf : f.possible_values.length = 9) (h : FieldsOK g) : FieldsOK (setF g p f) := by
  intro q
  by_cases hq : q = p
  · subst hq
    rw [getF_setF_same]
    exact hf
  · rw [getF_setF_ne _ _ _ _ hq]
    exact h q

theorem fieldsOK_clearFlagF (g : Grid) (q : Pos) (i : Nat) (h : FieldsOK g) :
    FieldsOK (clearFlagF g q i) := by
  refine fieldsOK_setF g q _ ?_ h
  simpa using h q

theorem fieldsOK_clearFlagChecked (g : Grid) (x y v : Int) (g' : Grid)
    (hs : clearFlagChecked g x y v = some g') (h : FieldsOK g) : FieldsOK g' := by
  unfold clearFlagChecked at hs
  split at hs
  · split at hs
    · split at hs
      · cases hs
        exact fieldsOK_clearFlagF g _ _ h
      · cases hs
    · cases hs
  · cases hs

theorem fieldsOK_passCV (g : Grid) (p : Pos) (v : Int) (g' : Grid)
    (hs : passCV g p v = some g') (h : FieldsOK g) : FieldsOK g' := by
  unfold passCV at hs
  rw [Option.bind_eq_some] at hs
  obtain ⟨gz, hz1, hz2⟩ := hs
  have h1 : FieldsOK gz := foldlM_some_pres _ FieldsOK _
    (fun gw ii gu _ hw hgw => fieldsOK_clearFlagChecked gw _ _ _ gu hw hgw) g gz hz1 h
  exact foldlM_some_pres _ FieldsOK _
    (fun gw jj gu _ hw hgw => fieldsOK_clearFlagChecked gw _ _ _ gu hw hgw) gz g' hz2 h1

theorem fieldsOK_passCCell (g : Grid) (p : Pos) (g' : Grid)
    (hs : passCCell g p = some g') (h : FieldsOK g) : FieldsOK g' := by
  unfold passCCell at hs
  split at hs
  · cases hs
    exact h
  · exact foldlM_some_pres _ FieldsOK _
      (fun gw v gu _ hw hgw => fieldsOK_passCV gw p v gu hw hgw) g g' hs h

theorem foldlM_split {α β : Type} (f : β → α → Option β) :
    ∀ (l1 : List α) (a : α) (l2 : List α) (b b' : β),
      (l1 ++ a :: l2).foldlM f b = some b' →
      ∃ b1 b2, l1.foldlM f b = some b1 ∧ f b1 a = some b2 ∧ l2.foldlM f b2 = some b'
  | [], a, l2, b, b', h => by
      simp only [List.nil_append, List.foldlM_cons] at h
      cases h1 : f b a with
      | none => rw [h1] at h; cases h
      | some b2 =>
          rw [h1] at h
          exact ⟨b, b2, rfl, h1, h⟩
  | x :: l1, a, l2, b, b', h => by
      simp only [List.cons_append, List.foldlM_cons] at h
      cases h1 : f b x with
      | none => rw [h1] at h; cases h
      | some bx =>
          rw [h1] at h
          obtain ⟨b1, b2, hb1, hba, hb2⟩ := foldlM_split f l1 a l2 bx b' h
          refine ⟨b1, b2, ?_, hba, hb2⟩
          simp only [List.foldlM_cons, h1]
          exact hb1

/-- A cleared flag stays cleared along any monotone step. -/
theorem flag_false_of_mono {g g' : Grid} (hm : Mono g' g) (p : Pos) (i : Nat)
    (h : getFlag (getF g p) i = false) : getFlag (getF g' p) i = false := by
  cases hb : getFlag (getF g' p) i with
  | false => rfl
  | true =>
      have := hm.1 p i hb
      rw [h] at this
      cases this

theorem mkFin9_eq (x : Int) (h : 0 ≤ x ∧ x < 9) (a : Fin 9) (hx : x = (a.val : Int)) :
    mkFin9 x h = a := by
  apply Fin.ext
  simp only [mkFin9]
  omega

theorem clearFlagF_self_flag (g : Grid) (q : Pos) (i : Nat)
    (h9 : (getF g q).possible_values.length = 9) (hi : i < 9) :
    getFlag (getF (clearFlagF g q i) q) i = false := by
  unfold clearFlagF
  rw [getF_setF_same]
  unfold getFlag
  exact getFlag_set_false_self _ i (by omega)

theorem clearFlagChecked_self (g : Grid) (p : Pos) (v : Int) (g' : Grid)
    (h9 : (getF g p).possible_values.length = 9) (hv : 0 ≤ v ∧ v < 9)
    (h : clearFlagChecked g (p.1.val : Int) (p.2.val : Int) v = some g') :
    getFlag (getF g' p) v.toNat = false := by
  have hx : (0 : Int) ≤ (p.1.val : Int) ∧ (p.1.val : Int) < 9 := by
    have := p.1.isLt
    omega
  have hy : (0 : Int) ≤ (p.2.val : Int) ∧ (p.2.val : Int) < 9 := by
    have := p.2.isLt
    omega
  unfold clearFlagChecked at h
  rw [dif_pos hx, dif_pos hy, if_pos hv] at h
  injection h with h'
  rw [← h', mkFin9_eq _ _ p.1 rfl, mkFin9_eq _ _ p.2 rfl, Prod.mk.eta]
  exact clearFlagF_self_flag g p v.toNat h9 (by omega)

theorem passCV_clears (g : Grid) (p : Pos) (v : Int) (g' : Grid) (hfok : FieldsOK g)
    (hv : 0 ≤ v ∧ v < 9) (h : passCV g p v = some g') :
    getFlag (getF g' p) v.toNat = false := by
  unfold passCV at h
  rw [Option.bind_eq_some] at h
  obtain ⟨g2, h1, h2⟩ := h
  have hmem : ((p.1.val : Int)) ∈
      rangeToList (constrain_range ((p.1 : Int) - 1) ((p.1 : Int) + 2) 0 9) := by
    unfold rangeToList constrain_range
    rw [mem_intRange]
    have := p.1.isLt
    constructor
    · exact max_le (by omega) (by omega)
    · exact lt_min (by omega) (by omega)
  obtain ⟨l1, l2, hsplit⟩ := List.mem_iff_append.mp hmem
  rw [hsplit] at h1
  obtain ⟨b1, b2, hb1, hba, hb2⟩ := foldlM_split _ _ _ _ _ _ h1
  have hfok1 : FieldsOK b1 := foldlM_some_pres _ FieldsOK _
    (fun gw ii gu _ hw hgw => fieldsOK_clearFlagChecked gw _ _ _ gu hw hgw) g b1 hb1 hfok
  have hflag : getFlag (getF b2 p) v.toNat = false :=
    clearFlagChecked_self b1 p v b2 (hfok1 p) hv hba
  have hm1 : Mono g2 b2 := by
    refine foldlM_some_pres _ (fun gw => Mono gw b2) _ ?_ b2 g2 hb2 (mono_refl b2)
    intro gw ii gu _ hw hgw
    exact mono_trans (mono_clearFlagChecked _ _ _ _ _ hw) hgw
  have hm2 : Mono g' g2 := by
    refine foldlM_some_pres _ (fun gw => Mono gw g2) _ ?_ g2 g' h2 (mono_refl g2)
    intro gw jj gu _ hw hgw
    exact mono_trans (mono_clearFlagChecked _ _ _ _ _ hw) hgw
  exact flag_false_of_mono hm2 p v.toNat (flag_false_of_mono hm1 p v.toNat hflag)

theorem passCCell_clears (g : Grid) (p : Pos) (g' : Grid) (hfok : FieldsOK g)
    (h : passCCell g p = some g') (hs : (getF g p).solved_value ≠ -1) :
    ∀ v : Int, v ∈ rangeToList (constrain_range ((getF g p).solved_value - 1)
      ((getF g p).solved_value + 2) 0 9) → getFlag (getF g' p) v.toNat = false := by
  intro v hvmem
  unfold passCCell at h
  rw [if_neg hs] at h
  obtain ⟨l1, l2, hsplit⟩ := List.mem_iff_append.mp hvmem
  rw [hsplit] at h
  obtain ⟨b1, b2, hb1, hba, hb2⟩ := foldlM_split _ _ _ _ _ _ h
  have hfok1 : FieldsOK b1 := foldlM_some_pres _ FieldsOK _
    (fun gw w gu _ hw hgw => fieldsOK_passCV gw p w gu hw hgw) g b1 hb1 hfok
  have hflag : getFlag (getF b2 p) v.toNat = false :=
    passCV_clears b1 p v b2 hfok1 (mem_rangeToList_constrain hvmem) hba
  have hm : Mono g' b2 := by
    refine foldlM_some_pres _ (fun gw => Mono gw b2) _ ?_ b2 g' hb2 (mono_refl b2)
    intro gw w gu _ hw hgw
    exact mono_trans (mono_passCV gw p w gu hw) hgw
  exact flag_false_of_mono hm p v.toNat hflag

/-- C10: pass C's clipped neighbour ranges include the solved cell's own coordinate:
whenever `solve_non_orthogonal` completes on a well-formed grid, every solved cell has
the candidate flags for the clipped digit range `[v-1, v+1]` cleared at its own
position as well, not only at its orthogonal neighbours. -/
theorem C10_self_adjacency :
    ∀ (g g' : Grid), FieldsOK g → solve_non_orthogonal g = some g' →
    ∀ p : Pos, (getF g p).solved_value ≠ -1 →
    ∀ v : Int, v ∈ rangeToList (constrain_range ((getF g p).solved_value - 1)
      ((getF g p).solved_value + 2) 0 9) →
    getFlag (getF g' p) v.toNat = false := by
  intro g g' hfok h p hs v hv
  unfold solve_non_orthogonal at h
  set F : Grid → Fin 9 → Option Grid :=
    fun g1 i => (List.finRange 9).foldlM (fun g2 j => passCCell g2 (i, j)) g1 with hF
  obtain ⟨l1, l2, hsplit⟩ := List.mem_iff_append.mp (List.mem_finRange p.1)
  rw [hsplit] at h
  obtain ⟨b1, b2, hb1, hba, hb2⟩ := foldlM_split _ _ _ _ _ _ h
  rw [hF] at hba
  obtain ⟨m1, m2, hsplit2⟩ := List.mem_iff_append.mp (List.mem_finRange p.2)
  rw [hsplit2] at hba
  obtain ⟨c1, c2, hc1, hca, hc2⟩ := foldlM_split _ _ _ _ _ _ hba
  have hfokb1 : FieldsOK b1 := foldlM_some_pres _ FieldsOK _
    (fun gw i gu _ hw hgw => foldlM_some_pres _ FieldsOK _
      (fun gz j gv _ hz hgz => fieldsOK_passCCell gz (i, j) gv hz hgz) gw gu hw hgw)
    g b1 hb1 hfok
  have hfokc1 : FieldsOK c1 := foldlM_some_pres _ FieldsOK _
    (fun gz j gv _ hz hgz => fieldsOK_passCCell gz (p.1, j) gv hz hgz) b1 c1 hc1 hfokb1
  have hse1 : SolvedEq b1 g := foldlM_some_pres _ (fun gw => SolvedEq gw g) _
    (fun gw i gu _ hw hgw => solvedEq_trans (foldlM_some_pres _ (fun gz => SolvedEq gz gw) _
      (fun gz j gv _ hz hgz => solvedEq_trans (solvedEq_passCCell gz (i, j) gv hz) hgz)
      gw gu hw (solvedEq_refl gw)) hgw)
    g b1 hb1 (solvedEq_refl g)
  have hse2 : SolvedEq c1 b1 := foldlM_some_pres _ (fun gz => SolvedEq gz b1) _
    (fun gz j gv _ hz hgz => solvedEq_trans (solvedEq_passCCell gz (p.1, j) gv hz) hgz)
    b1 c1 hc1 (solvedEq_refl b1)
  have hsv : (getF c1 p).solved_value = (getF g p).solved_value := (hse2 p).trans (hse1 p)
  rw [Prod.mk.eta] at hca
  have hflag := passCCell_clears c1 p c2 hfokc1 hca (by rw [hsv]; exact hs) v
    (by rw [hsv]; exact hv)
  have hmc : Mono b2 c2 := foldlM_some_pres _ (fun gw => Mono gw c2) _
    (fun gz j gv _ hz hgz => mono_trans (mono_passCCell gz (p.1, j) gv hz) hgz)
    c2 b2 hc2 (mono_refl c2)
  have hmb : Mono g' b2 := foldlM_some_pres _ (fun gw => Mono gw b2) _
    (fun gw i gu _ hw hgw => mono_trans (foldlM_some_pres _ (fun gz => Mono gz gw) _
      (fun gz j gv _ hz hgz => mono_trans (mono_passCCell gz (i, j) gv hz) hgz)
      gw gu hw (mono_refl gw)) hgw)
    b2 g' hb2 (mono_refl b2)
  exact flag_false_of_mono hmb p v.toNat (flag_false_of_mono hmc p v.toNat hflag)

theorem C10_witness :
    getFlag (getF C1afterPassC ((3 : Fin 9), (6 : Fin 9))) ((1 : Int)).toNat = false :=
  C10_self_adjacency initialSudoku C1afterPassC (by decide) (by decide)
    ((3 : Fin 9), (6 : Fin 9)) (by decide) 1 (by decide)

/-- C6: adjacency-rule scenario.  With `(4,4)` solved to digit 5 (internal value 4),
pass C clears the flags for digits 4, 5, 6 (internal 3, 4, 5) at the four orthogonal
neighbours `(3,4)`, `(5,4)`, `(4,3)`, `(4,5)` and leaves diagonal neighbours such as
`(3,3)` (and every other cell) unchanged. -/
theorem C6_adjacency_scenario :
    solve_non_orthogonal C6grid = some C6expected ∧
    (getFlag (getF C6expected ((3 : Fin 9), (4 : Fin 9))) 3 = false ∧
     getFlag (getF C6expected ((3 : Fin 9), (4 : Fin 9))) 4 = false ∧
     getFlag (getF C6expected ((3 : Fin 9), (4 : Fin 9))) 5 = false) ∧
    (getFlag (getF C6expected ((5 : Fin 9), (4 : Fin 9))) 3 = false ∧
     getFlag (getF C6expected ((5 : Fin 9), (4 : Fin 9))) 4 = false ∧
     getFlag (getF C6expected ((5 : Fin 9), (4 : Fin 9))) 5 = false) ∧
    (getFlag (getF C6expected ((4 : Fin 9), (3 : Fin 9))) 3 = false ∧
     getFlag (getF C6expected ((4 : Fin 9), (3 : Fin 9))) 4 = false ∧
     getFlag (getF C6expected ((4 : Fin 9), (3 : Fin 9))) 5 = false) ∧
    (getFlag (getF C6expected ((4 : Fin 9), (5 : Fin 9))) 3 = false ∧
     getFlag (getF C6expected ((4 : Fin 9), (5 : Fin 9))) 4 = false ∧
     getFlag (getF C6expected ((4 : Fin 9), (5 : Fin 9))) 5 = false) ∧
    getF C6expected ((3 : Fin 9), (3 : Fin 9)) = allCandField ∧
    getF C6expected ((5 : Fin 9), (5 : Fin 9)) = allCandField ∧
    getF C6expected ((3 : Fin 9), (5 : Fin 9)) = allCandField ∧
    getF C6expected ((5 : Fin 9), (3 : Fin 9)) = allCandField := by
  decide

/-- C7: pass C clips correctly.  (1) `solve_non_orthogonal` completes on every grid —
no checked index write ever fails, so no out-of-bounds access happens; (2) every
member of a range clipped to `[0,9)` lies in `[0,9)`; (3) for a solved cell at
`(0,0)` (any digit, candidates empty per I1) the only cells that change are the two
in-bounds neighbours `(1,0)` and `(0,1)`. -/
theorem C7_boundary :
    (∀ g : Grid, (solve_non_orthogonal g).isSome = true) ∧
    (∀ s e v : Int, v ∈ rangeToList (constrain_range s e 0 9) → 0 ≤ v ∧ v < 9) ∧
    (∀ sv : Fin 9, solve_non_orthogonal (C7grid sv) = some (C7out sv)) := by
  refine ⟨solve_non_orthogonal_isSome, ?_, by decide⟩
  intro s e v hv
  exact mem_rangeToList_constrain hv

theorem C7_witness : 0 ≤ (3 : Int) ∧ (3 : Int) < 9 :=
  C7_boundary.2.1 3 6 3 (by decide)

/-! ### Hidden-single analysis -/

theorem getFlag_setSolvedClear (g : Grid) (p : Pos) (v : Int) (i : Nat) :
    getFlag (getF (setSolvedClear g p v) p) i = false := by
  unfold setSolvedClear
  rw [getF_setF_same]
  unfold getFlag
  exact getFlag_map_false _ _

theorem solved_setSolvedClear (g : Grid) (p : Pos) (v : Int) :
    (getF (setSolvedClear g p v) p).solved_value = v := by
  unfold setSolvedClear
  rw [getF_setF_same]

theorem hiddenFold_skip (v : Nat) :
    ∀ (l : List Pos) (g : Grid), (∀ q ∈ l, getFlag (getF g q) v = false) →
      l.foldl (fun g1 q =>
        if getFlag (getF g1 q) v then setSolvedClear g1 q (v : Int) else g1) g = g
  | [], _, _ => rfl
  | q :: l, g, h => by
      simp only [List.foldl_cons]
      rw [if_neg (by rw [h q (List.mem_cons_self _ _)]; exact Bool.false_ne_true)]
      exact hiddenFold_skip v l g (fun r hr => h r (List.mem_cons_of_mem _ hr))

theorem hiddenFold_solves (v : Nat) :
    ∀ (l : List Pos) (g : Grid) (p : Pos),
      (l.filter (fun q => getFlag (getF g q) v)).length = 1 →
      p ∈ l → getFlag (getF g p) v = true →
      l.foldl (fun g1 q =>
        if getFlag (getF g1 q) v then setSolvedClear g1 q (v : Int) else g1) g =
        setSolvedClear g p (v : Int)
  | [], _, p, _, hp, _ => absurd hp (by simp)
  | q :: t, g, p, hcount, hp, hpv => by
      cases hq : getFlag (getF g q) v with
      | true =>
          have hfil : ((q :: t).filter (fun r => getFlag (getF g r) v)) =
              q :: t.filter (fun r => getFlag (getF g r) v) :=
            List.filter_cons_of_pos hq
          rw [hfil] at hcount
          have htnil : t.filter (fun r => getFlag (getF g r) v) = [] := by
            have : (t.filter (fun r => getFlag (getF g r) v)).length = 0 := by
              simpa using hcount
            exact List.length_eq_zero.mp this
          have htflag : ∀ r ∈ t, getFlag (getF g r) v = false := by
            intro r hr
            have := List.filter_eq_nil_iff.mp htnil r hr
            simpa using this
          have hpq : p = q := by
            rcases List.mem_cons.mp hp with h | h
            · exact h
            · rw [htflag p h] at hpv
              cases hpv
          subst hpq
          simp only [List.foldl_cons]
          rw [if_pos hq]
          refine hiddenFold_skip v t (setSolvedClear g p (v : Int)) ?_
          intro r hr
          by_cases hrp : r = p
          · subst hrp
            exact getFlag_setSolvedClear g r (v : Int) v
          · unfold setSolvedClear
            unfold getFlag
            rw [getF_setF_ne _ _ _ _ hrp]
            exact htflag r hr
      | false =>
          have hfil : ((q :: t).filter (fun r => getFlag (getF g r) v)) =
              t.filter (fun r => getFlag (getF g r) v) :=
            List.filter_cons_of_neg (by rw [hq]; exact Bool.false_ne_true)
          rw [hfil] at hcount
          have hpq : p ≠ q := by
            intro hpq
            rw [hpq, hq] at hpv
            cases hpv
          have hpt : p ∈ t := by
            rcases List.mem_cons.mp hp with h | h
            · exact absurd h hpq
            · exact h
          simp only [List.foldl_cons]
          rw [if_neg (by rw [hq]; exact Bool.false_ne_true)]
          exact hiddenFold_solves v t g p hcount hpt hpv

/-- C4: in Pass A's hidden-single step, for a size-9 region and a digit `v` (internal
index, digit `v+1`) not yet solved anywhere in the region, if — with every solved
cell of the region no longer carrying `v`, as is the case after steps 1–3 of the
round — exactly one unsolved cell of the region still carries `v` as a candidate,
then that cell is force-solved to `v` and all of its candidate flags are cleared,
even if other candidate flags were still set on it. -/
theorem C4_hidden_single (c : SudokuConstraint) (g : Grid) (v : Nat) (p : Pos)
    (h9 : c.fields.length = 9) (hv9 : v < 9)
    (hnv : has_value c g (v : Int) = false)
    (hcleared : ∀ q ∈ c.fields, (getF g q).solved_value ≠ -1 → getFlag (getF g q) v = false)
    (hcount : (c.fields.filter (fun q =>
      decide ((getF g q).solved_value = -1) && getFlag (getF g q) v)).length = 1)
    (hp : p ∈ c.fields) (hpv : getFlag (getF g p) v = true) :
    (getF (hiddenStep g c v) p).solved_value = (v : Int) ∧
    ∀ i, getFlag (getF (hiddenStep g c v) p) i = false := by
  have hfe : c.fields.filter (fun q => getFlag (getF g q) v) =
      c.fields.filter (fun q =>
        decide ((getF g q).solved_value = -1) && getFlag (getF g q) v) := by
    refine List.filter_congr ?_
    intro q hq
    by_cases hq2 : (getF g q).solved_value = -1
    · simp [hq2]
    · rw [hcleared q hq hq2]
      simp [hq2]
  have hcount' : (c.fields.filter (fun q => getFlag (getF g q) v)).length = 1 := by
    rw [hfe]
    exact hcount
  unfold hiddenStep
  rw [if_neg (by rw [hnv]; exact Bool.false_ne_true), if_pos hcount',
    hiddenFold_solves v c.fields g p hcount' hp hpv]
  exact ⟨solved_setSolvedClear g p (v : Int), fun i => getFlag_setSolvedClear g p (v : Int) i⟩

theorem C4_witness :
    (getF (hiddenStep C4grid C3c 5) ((0 : Fin 9), (0 : Fin 9))).solved_value =
      ((5 : Nat) : Int) ∧
    getFlag (getF (hiddenStep C4grid C3c 5) ((0 : Fin 9), (0 : Fin 9))) 3 = false :=
  ⟨(C4_hidden_single C3c C4grid 5 ((0 : Fin 9), (0 : Fin 9)) (by decide) (by decide) (by decide)
      (by decide) (by decide) (by decide) (by decide)).1,
   (C4_hidden_single C3c C4grid 5 ((0 : Fin 9), (0 : Fin 9)) (by decide) (by decide) (by decide)
      (by decide) (by decide) (by decide) (by decide)).2 3⟩

/-! ### Pointing-set elimination analysis -/

theorem clearFold_untouched (n : Nat) :
    ∀ (l : List Pos) (g : Grid) (q : Pos), ¬ q ∈ l →
      getF (l.foldl (fun g1 r => clearFlagF g1 r n) g) q = getF g q
  | [], _, _, _ => rfl
  | r :: l, g, q, hq => by
      simp only [List.foldl_cons]
      rw [clearFold_untouched n l _ q (fun h => hq (List.mem_cons_of_mem _ h))]
      unfold clearFlagF
      rw [getF_setF_ne _ _ _ _ (fun h => hq (by rw [h]; exact List.mem_cons_self _ _))]

theorem clearFold_other_flag (n : Nat) :
    ∀ (l : List Pos) (g : Grid) (q : Pos) (w : Nat), w ≠ n →
      getFlag (getF (l.foldl (fun g1 r => clearFlagF g1 r n) g) q) w = getFlag (getF g q) w
  | [], _, _, _, _ => rfl
  | r :: l, g, q, w, hw => by
      simp only [List.foldl_cons]
      rw [clearFold_other_flag n l _ q w hw]
      by_cases hq : q = r
      · subst hq
        unfold clearFlagF getFlag
        rw [getF_setF_same]
        exact getFlag_set_false_ne _ _ _ hw
      · unfold clearFlagF
        rw [getF_setF_ne _ _ _ _ hq]

theorem clearFold_clears (n : Nat) (l : List Pos) (g : Grid) (q : Pos) (hq : q ∈ l)
    (hfok : FieldsOK g) (hn : n < 9) :
    getFlag (getF (l.foldl (fun g1 r => clearFlagF g1 r n) g) q) n = false := by
  obtain ⟨l1, l2, hsplit⟩ := List.mem_iff_append.mp hq
  subst hsplit
  rw [List.foldl_append, List.foldl_cons]
  have hfok1 : FieldsOK (l1.foldl (fun g1 r => clearFlagF g1 r n) g) :=
    foldl_pres _ FieldsOK _ (fun gx r _ hgx => fieldsOK_clearFlagF gx r n hgx) g hfok
  have hcl : getFlag (getF (clearFlagF (l1.foldl (fun g1 r => clearFlagF g1 r n) g) q n) q) n
      = false :=
    clearFlagF_self_flag _ q n (hfok1 q) hn
  have hm : Mono (l2.foldl (fun g1 r => clearFlagF g1 r n)
      (clearFlagF (l1.foldl (fun g1 r => clearFlagF g1 r n) g) q n))
      (clearFlagF (l1.foldl (fun g1 r => clearFlagF g1 r n) g) q n) :=
    foldl_pres _ (fun gx => Mono gx _) _
      (fun gx r _ hgx => mono_trans (mono_clearFlagF gx r n) hgx) _ (mono_refl _)
  exact flag_false_of_mono hm q n hcl

/-- C5: pointing-set soundness at the granularity of one overlapping-region deduction.
For a full region `c`, a digit `n` (internal index) not solved in `c` whose candidate
set `S` within `c` is non-empty, and a distinct full region `oc` that contains the
anchor `S.headI`, has `n` unsolved, and contains every cell of `S`: the elimination
`eliminateOverlap` that pass B performs for this pair clears candidate `n` at exactly
the cells of `oc` not in `S`; every cell of `S`, and every cell outside `oc`, keeps
its entire state, all other digits are untouched everywhere, and no solved value
changes. -/
theorem C5_pointing_set (cs : List SudokuConstraint) (c oc : SudokuConstraint) (g : Grid)
    (n : Nat) (S : List Pos) (hfok : FieldsOK g) (hn : n < 9)
    (hc9 : c.fields.length = 9) (hoc9 : oc.fields.length = 9) (hid : oc.id ≠ c.id)
    (hnvc : has_value c g (n : Int) = false) (hnvoc : has_value oc g (n : Int) = false)
    (hS : S = c.fields.filter (fun q => getFlag (getF g q) n)) (hSne : S ≠ [])
    (hanchor : oc ∈ inverseMap cs S.headI) (hsub : ∀ q ∈ S, q ∈ oc.fields) :
    (∀ q ∈ oc.fields, ¬ q ∈ S → getFlag (getF (eliminateOverlap g S oc n) q) n = false) ∧
    (∀ q, q ∈ S ∨ ¬ q ∈ oc.fields → getF (eliminateOverlap g S oc n) q = getF g q) ∧
    (∀ q w, w ≠ n → getFlag (getF (eliminateOverlap g S oc n) q) w = getFlag (getF g q) w) ∧
    (∀ q, (getF (eliminateOverlap g S oc n) q).solved_value = (getF g q).solved_value) := by
  have hmemL : ∀ q : Pos, q ∈ oc.fields.filter (fun r => !(S.contains r)) ↔
      (q ∈ oc.fields ∧ ¬ q ∈ S) := by
    intro q
    rw [List.mem_filter]
    constructor
    · rintro ⟨h1, h2⟩
      refine ⟨h1, ?_⟩
      simp only [Bool.not_eq_true'] at h2
      intro hq
      have helem : List.elem q S = true := List.elem_iff.mpr hq
      rw [show S.contains q = List.elem q S from rfl, helem] at h2
      cases h2
    · rintro ⟨h1, h2⟩
      refine ⟨h1, ?_⟩
      rw [Bool.not_eq_true', show S.contains q = List.elem q S from rfl]
      cases he : List.elem q S with
      | false => rfl
      | true => exact absurd (List.elem_iff.mp he) h2
  refine ⟨?_, ?_, ?_, ?_⟩
  · intro q hq hqs
    exact clearFold_clears n _ g q ((hmemL q).mpr ⟨hq, hqs⟩) hfok hn
  · intro q hq
    refine clearFold_untouched n _ g q ?_
    intro hmem
    rcases hq with hq | hq
    · exact ((hmemL q).mp hmem).2 hq
    · exact hq ((hmemL q).mp hmem).1
  · intro q w hw
    exact clearFold_other_flag n _ g q w hw
  · intro q
    exact solvedEq_eliminateOverlap g S oc n q

theorem C5_witness :
    getFlag (getF (eliminateOverlap C5grid [((0 : Fin 9), (0 : Fin 9))] C5col 2)
      ((0 : Fin 9), (5 : Fin 9))) 2 = false :=
  (C5_pointing_set [C3c, C5col] C3c C5col C5grid 2 [((0 : Fin 9), (0 : Fin 9))]
      (by decide) (by decide) (by decide) (by decide) (by decide) (by decide) (by decide)
      (by decide) (by decide) (by decide) (by decide)).1
    ((0 : Fin 9), (5 : Fin 9)) (by decide) (by decide)

/-! ### The fatal assertion is the only failure of the passes -/

theorem findIdx?_lt_length_aux {α : Type} (p : α → Bool) :
    ∀ (l : List α) (i j : Nat), List.findIdx? p l i = some j → j < i + l.length
  | [], i, j, h => by rw [List.findIdx?_nil] at h; cases h
  | a :: l, i, j, h => by
      rw [List.findIdx?_cons] at h
      split at h
      · cases h
        simp only [List.length_cons]
        omega
      · have := findIdx?_lt_length_aux p l (i + 1) j h
        simp only [List.length_cons]
        omega

theorem findIdx?_lt_length {α : Type} (p : α → Bool) (l : List α) (i : Nat)
    (h : l.findIdx? p = some i) : i < l.length := by
  have := findIdx?_lt_length_aux p l 0 i h
  omega

theorem is_solved_findIdx (f : SudokuField) (h : is_solved f = true) :
    ∃ i, f.possible_values.findIdx? (fun b => b) = some i := by
  unfold is_solved at h
  have h1 : (f.possible_values.filter (fun b => b)).length = 1 := by simpa using h
  have hne : f.possible_values.filter (fun b => b) ≠ [] := by
    intro hnil
    rw [hnil] at h1
    cases h1
  obtain ⟨b, hb⟩ := List.exists_mem_of_ne_nil _ hne
  have hbm := List.mem_filter.mp hb
  have hany : f.possible_values.any (fun b => b) = true :=
    List.any_eq_true.mpr ⟨b, hbm.1, hbm.2⟩
  have hsome : (f.possible_values.findIdx? (fun b => b)).isSome = true := by
    rw [List.findIdx?_isSome]
    exact hany
  rwa [Option.isSome_iff_exists] at hsome

theorem solved_clearStep_self (g : Grid) (p : Pos) :
    (getF (clearStep g p) p).solved_value = (getF g p).solved_value := by
  unfold clearStep
  split
  · unfold clearAllF
    rw [getF_setF_same]
  · rfl

/-- C8 part 1: under the `[bool; 9]` field shape and an in-range solved value (the
data-model invariant), one cell visit of Pass A's first loop halts fatally exactly
when a naked-single promotion finds its deduced digit already solved somewhere in the
current region — the `assert!` — and in no other case. -/
theorem stepCell_none_iff (c : SudokuConstraint) (g : Grid) (p : Pos)
    (hlen : (getF g p).possible_values.length = 9)
    (hrange : (getF g p).solved_value = -1 ∨
      (0 ≤ (getF g p).solved_value ∧ (getF g p).solved_value < 9)) :
    stepCell c g p = none ↔
      ((getF g p).solved_value = -1 ∧ is_solved (getF g p) = true ∧
        ∃ i, (getF g p).possible_values.findIdx? (fun b => b) = some i ∧
          has_value c g (i : Int) = true) := by
  constructor
  · intro h
    unfold stepCell at h
    by_cases hguard : (getF g p).solved_value = -1 ∧ is_solved (getF g p) = true
    · obtain ⟨i, hi⟩ := is_solved_findIdx _ hguard.2
      by_cases hhv : has_value c g (i : Int) = true
      · exact ⟨hguard.1, hguard.2, i, hi, hhv⟩
      · exfalso
        have hnk : nakedStep c g p = some (setSolved g p (i : Int)) := by
          unfold nakedStep
          rw [if_pos hguard, hi]
          show (if has_value c g (i : Int) = true then none
            else some (setSolved g p (i : Int))) = _
          rw [if_neg hhv]
        rw [hnk, Option.some_bind] at h
        have hsv : (getF (clearStep (setSolved g p (i : Int)) p) p).solved_value =
            (i : Int) := by
          rw [solved_clearStep_self]
          unfold setSolved
          rw [getF_setF_same]
        have hibound : i < 9 := by
          have := findIdx?_lt_length _ _ _ hi
          omega
        unfold elimStep at h
        rw [hsv] at h
        rw [if_pos (by omega : (i : Int) ≠ -1), if_pos (by constructor <;> omega)] at h
        cases h
    · exfalso
      have hnk : nakedStep c g p = some g := by
        unfold nakedStep
        rw [if_neg hguard]
      rw [hnk, Option.some_bind] at h
      have hsv : (getF (clearStep g p) p).solved_value = (getF g p).solved_value :=
        solved_clearStep_self g p
      unfold elimStep at h
      rw [hsv] at h
      rcases hrange with hr | hr
      · rw [if_neg (by omega : ¬ (getF g p).solved_value ≠ -1)] at h
        cases h
      · rw [if_pos (by omega : (getF g p).solved_value ≠ -1), if_pos hr] at h
        cases h
  · rintro ⟨hsv, hsolved, i, hi, hhv⟩
    have hnk : nakedStep c g p = none := by
      unfold nakedStep
      rw [if_pos ⟨hsv, hsolved⟩, hi]
      show (if has_value c g (i : Int) = true then none
        else some (setSolved g p (i : Int))) = none
      rw [if_pos hhv]
    unfold stepCell
    rw [hnk]
    rfl

/-- C8: the naked-single `assert!` is the engine's only fatal path.  Part 1: a cell
visit of Pass A halts iff the assertion condition holds (`stepCell_none_iff` restated
as the conjunction below); part 2: pass C never fails (pass B is a total function by
construction); part 3: a whole `solve_simple` run on a concrete region where the
deduced digit is already solved does halt with the fatal error. -/
theorem C8_fatal_assert :
    (∀ (c : SudokuConstraint) (g : Grid) (p : Pos),
      (getF g p).possible_values.length = 9 →
      ((getF g p).solved_value = -1 ∨
        (0 ≤ (getF g p).solved_value ∧ (getF g p).solved_value < 9)) →
      (stepCell c g p = none ↔
        ((getF g p).solved_value = -1 ∧ is_solved (getF g p) = true ∧
          ∃ i, (getF g p).possible_values.findIdx? (fun b => b) = some i ∧
            has_value c g (i : Int) = true))) ∧
    (∀ g : Grid, (solve_non_orthogonal g).isSome = true) ∧
    solve_simple [C3c] C8grid = none := by
  refine ⟨stepCell_none_iff, solve_non_orthogonal_isSome, by decide⟩

theorem C8_witness : stepCell C3c C8grid ((0 : Fin 9), (0 : Fin 9)) = none :=
  (C8_fatal_assert.1 C3c C8grid ((0 : Fin 9), (0 : Fin 9)) (by decide)
      (Or.inl (by decide))).mpr
    ⟨by decide, by decide, 5, by decide, by decide⟩

/-! ### End-to-end scenario helpers -/

theorem foldlM_inv_estab {α β : Type} (f : β → α → Option β) (P : β → Prop) (Q : β → α → Prop) :
    ∀ (l : List α),
      (∀ b a, a ∈ l → P b →
        ∃ b', f b a = some b' ∧ P b' ∧ (∀ x, Q b x → Q b' x) ∧ Q b' a) →
      ∀ b, P b →
        ∃ b', l.foldlM f b = some b' ∧ P b' ∧ (∀ x, Q b x → Q b' x) ∧ ∀ a ∈ l, Q b' a
  | [], _, b, hP => ⟨b, rfl, hP, fun _ h => h, fun a ha => nomatch ha⟩
  | a :: l, hstep, b, hP => by
      obtain ⟨b1, hf, hP1, hQpres, hQa⟩ := hstep b a (List.mem_cons_self _ _) hP
      obtain ⟨b', hfold, hP', hQpres', hQl⟩ := foldlM_inv_estab f P Q l
        (fun b2 a2 ha2 => hstep b2 a2 (List.mem_cons_of_mem _ ha2)) b1 hP1
      refine ⟨b', ?_, hP', fun x hx => hQpres' x (hQpres x hx), ?_⟩
      · simp only [List.foldlM_cons, hf]
        exact hfold
      · intro x hx
        rcases List.mem_cons.mp hx with hx | hx
        · subst hx
          exact hQpres' x hQa
        · exact hQl x hx

theorem clearFold_solvedEq (n : Nat) (l : List Pos) (g : Grid) :
    SolvedEq (l.foldl (fun g1 r => clearFlagF g1 r n) g) g :=
  foldl_pres _ (fun gx => SolvedEq gx g) _
    (fun gx r _ hgx => solvedEq_trans (solvedEq_clearFlagF gx r n) hgx) g (solvedEq_refl g)

theorem clearFold_mono (n : Nat) (l : List Pos) (g : Grid) :
    Mono (l.foldl (fun g1 r => clearFlagF g1 r n) g) g :=
  foldl_pres _ (fun gx => Mono gx g) _
    (fun gx r _ hgx => mono_trans (mono_clearFlagF gx r n) hgx) g (mono_refl g)

theorem clearFold_fieldsOK (n : Nat) (l : List Pos) (g : Grid) (h : FieldsOK g) :
    FieldsOK (l.foldl (fun g1 r => clearFlagF g1 r n) g) :=
  foldl_pres _ FieldsOK _ (fun gx r _ hgx => fieldsOK_clearFlagF gx r n hgx) g h

theorem fieldsOK_setSolved (g : Grid) (p : Pos) (v : Int) (h : FieldsOK g) :
    FieldsOK (setSolved g p v) :=
  fieldsOK_setF g p _ (h p) h

theorem fieldsOK_clearAllF (g : Grid) (p : Pos) (h : FieldsOK g) :
    FieldsOK (clearAllF g p) :=
  fieldsOK_setF g p _ (by simpa using h p) h

theorem getF_clearAllF_ne (g : Grid) (p q : Pos) (hq : q ≠ p) :
    getF (clearAllF g p) q = getF g q := by
  unfold clearAllF
  rw [getF_setF_ne _ _ _ _ hq]

theorem solved_clearAllF_self (g : Grid) (p : Pos) :
    (getF (clearAllF g p) p).solved_value = (getF g p).solved_value := by
  unfold clearAllF
  rw [getF_setF_same]

theorem getFlag_clearAllF_self (g : Grid) (p : Pos) (i : Nat) :
    getFlag (getF (clearAllF g p) p) i = false := by
  unfold clearAllF
  rw [getF_setF_same]
  unfold getFlag
  exact getFlag_map_false _ _

theorem getF_setSolved_ne (g : Grid) (p : Pos) (v : Int) (q : Pos) (hq : q ≠ p) :
    getF (setSolved g p v) q = getF g q := by
  unfold setSolved
  rw [getF_setF_ne _ _ _ _ hq]

theorem solved_setSolved_self (g : Grid) (p : Pos) (v : Int) :
    (getF (setSolved g p v) p).solved_value = v := by
  unfold setSolved
  rw [getF_setF_same]

theorem getFlag_setSolved_self (g : Grid) (p : Pos) (v : Int) (i : Nat) :
    getFlag (getF (setSolved g p v) p) i = getFlag (getF g p) i := by
  unfold setSolved getFlag
  rw [getF_setF_same]

theorem exists_nine_bools (l : List Bool) (h : l.length = 9) :
    ∃ b0 b1 b2 b3 b4 b5 b6 b7 b8, l = [b0, b1, b2, b3, b4, b5, b6, b7, b8] := by
  rcases l with _ | ⟨b0, l⟩
  · simp at h
  rcases l with _ | ⟨b1, l⟩
  · simp at h
  rcases l with _ | ⟨b2, l⟩
  · simp at h
  rcases l with _ | ⟨b3, l⟩
  · simp at h
  rcases l with _ | ⟨b4, l⟩
  · simp at h
  rcases l with _ | ⟨b5, l⟩
  · simp at h
  rcases l with _ | ⟨b6, l⟩
  · simp at h
  rcases l with _ | ⟨b7, l⟩
  · simp at h
  rcases l with _ | ⟨b8, l⟩
  · simp at h
  rcases l with _ | ⟨b9, l⟩
  · exact ⟨b0, b1, b2, b3, b4, b5, b6, b7, b8, rfl⟩
  · simp at h

theorem findIdx_unique_eight (b0 b1 b2 b3 b4 b5 b6 b7 b8 : Bool)
    (hc : ([b0, b1, b2, b3, b4, b5, b6, b7, b8].filter (fun b => b)).length = 1)
    (h8 : b8 = true) :
    [b0, b1, b2, b3, b4, b5, b6, b7, b8].findIdx? (fun b => b) = some 8 := by
  revert b0 b1 b2 b3 b4 b5 b6 b7 b8
  decide

theorem has_value_true_of (c : SudokuConstraint) (g : Grid) (v : Int) (q : Pos)
    (hq : q ∈ c.fields) (hv : (getF g q).solved_value = v) : has_value c g v = true := by
  unfold has_value
  rw [List.any_eq_true]
  exact ⟨q, hq, by rw [hv]; exact beq_iff_eq.mpr rfl⟩

theorem has_value_false_of (c : SudokuConstraint) (g : Grid) (v : Int)
    (h : ∀ q ∈ c.fields, (getF g q).solved_value ≠ v) : has_value c g v = false := by
  unfold has_value
  cases ha : c.fields.any (fun p => (getF g p).solved_value == v) with
  | false => rfl
  | true =>
      obtain ⟨q, hq, hpq⟩ := List.any_eq_true.mp ha
      exact absurd (beq_iff_eq.mp hpq) (h q hq)

theorem filter_unique_length (u : Pos) (p : Pos → Bool) :
    ∀ (l : List Pos), l.Nodup → u ∈ l → (∀ q ∈ l, p q = true ↔ q = u) →
      (l.filter p).length = 1
  | [], _, hu, _ => absurd hu (by simp)
  | a :: t, hnd, hu, hp => by
      have hat : ¬ a ∈ t := (List.nodup_cons.mp hnd).1
      by_cases hau : a = u
      · subst hau
        rw [List.filter_cons_of_pos ((hp a (List.mem_cons_self _ _)).mpr rfl)]
        have htnil : t.filter p = [] := by
          rw [List.filter_eq_nil_iff]
          intro q hq
          intro hpq
          have := (hp q (List.mem_cons_of_mem _ hq)).mp hpq
          subst this
          exact hat hq
        rw [htnil]
        rfl
      · have hpa : ¬ p a = true := fun hpa => hau ((hp a (List.mem_cons_self _ _)).mp hpa)
        rw [List.filter_cons_of_neg hpa]
        have hut : u ∈ t := by
          rcases List.mem_cons.mp hu with h | h
          · exact absurd h.symm hau
          · exact h
        exact filter_unique_length u p t (List.nodup_cons.mp hnd).2 hut
          (fun q hq => hp q (List.mem_cons_of_mem _ hq))

theorem hiddenStep_of_has (g : Grid) (c : SudokuConstraint) (v : Nat)
    (h : has_value c g (v : Int) = true) : hiddenStep g c v = g := by
  unfold hiddenStep
  rw [if_pos h]

theorem hiddenStep_fix_cell (g : Grid) (c : SudokuConstraint) (v : Nat) (u : Pos)
    (V : SudokuField) (hV : ∀ i, getFlag V i = false) (hu : getF g u = V) :
    getF (hiddenStep g c v) u = V := by
  unfold hiddenStep
  split
  · exact hu
  · split
    · refine foldl_pres _ (fun gx => getF gx u = V) _ ?_ g hu
      intro gx q _ hgx
      by_cases hcar : getFlag (getF gx q) v = true
      · rw [if_pos hcar]
        have hqu : q ≠ u := by
          intro he
          subst he
          rw [hgx, hV v] at hcar
          cases hcar
        unfold setSolvedClear
        rw [getF_setF_ne _ _ _ _ (fun he => hqu he.symm)]
        exact hgx
      · rw [if_neg hcar]
        exact hgx
    · exact hu

theorem C3_step (g : Grid) (c : SudokuConstraint) (u : Pos)
    (hu : u ∈ c.fields)
    (hrange : ∀ q ∈ c.fields, q ≠ u →
      0 ≤ (getF g q).solved_value ∧ (getF g q).solved_value < 8)
    (gc : Grid) (q : Pos) (hq : q ∈ c.fields) (hP : C3Inv g gc c u) :
    ∃ gc', stepCell c gc q = some gc' ∧ C3Inv g gc' c u ∧
      (∀ x, C3Done g gc u x → C3Done g gc' u x) ∧ C3Done g gc' u q := by
  obtain ⟨hfok, hP1, hP2⟩ := hP
  by_cases hqu : q = u
  · subst hqu
    rcases hP2 with ⟨hsv, hflag8⟩ | ⟨hsv, hflags⟩
    · by_cases his : is_solved (getF gc q) = true
      · -- naked-single promotion of the open cell to internal value 8
        obtain ⟨b0, b1, b2, b3, b4, b5, b6, b7, b8, hpv⟩ :=
          exists_nine_bools (getF gc q).possible_values (hfok q)
        have h8 : b8 = true := by
          have hb := hflag8
          unfold getFlag at hb
          rw [hpv] at hb
          exact hb
        have hfind : (getF gc q).possible_values.findIdx? (fun b => b) = some 8 := by
          have hcnt : ([b0, b1, b2, b3, b4, b5, b6, b7, b8].filter (fun b => b)).length = 1 := by
            have hi := his
            unfold is_solved at hi
            rw [hpv] at hi
            simpa using hi
          rw [hpv]
          exact findIdx_unique_eight b0 b1 b2 b3 b4 b5 b6 b7 b8 hcnt h8
        have hhv : has_value c gc (((8 : Nat) : Int)) = false := by
          refine has_value_false_of c gc _ ?_
          intro r hr
          by_cases hru : r = q
          · subst hru
            rw [hsv]
            omega
          · rw [(hP1 r hr hru).1]
            have := hrange r hr hru
            omega
        have hnaked : nakedStep c gc q = some (setSolved gc q ((8 : Nat) : Int)) := by
          unfold nakedStep
          rw [if_pos ⟨hsv, his⟩, hfind]
          show (if has_value c gc ((8 : Nat) : Int) = true then none
            else some (setSolved gc q ((8 : Nat) : Int))) = _
          rw [if_neg (by rw [hhv]; exact Bool.false_ne_true)]
        have h1sv : (getF (setSolved gc q ((8 : Nat) : Int)) q).solved_value =
            ((8 : Nat) : Int) := solved_setSolved_self gc q _
        have hclear : clearStep (setSolved gc q ((8 : Nat) : Int)) q =
            clearAllF (setSolved gc q ((8 : Nat) : Int)) q := by
          unfold clearStep
          rw [if_pos (by rw [h1sv]; omega)]
        have h2sv : (getF (clearAllF (setSolved gc q ((8 : Nat) : Int)) q) q).solved_value =
            ((8 : Nat) : Int) := by
          rw [solved_clearAllF_self, h1sv]
        have helim : elimStep c (clearAllF (setSolved gc q ((8 : Nat) : Int)) q) q =
            some (c.fields.foldl (fun gx r => clearFlagF gx r (((8 : Nat) : Int)).toNat)
              (clearAllF (setSolved gc q ((8 : Nat) : Int)) q)) := by
          unfold elimStep
          rw [if_pos (by rw [h2sv]; omega), if_pos (by rw [h2sv]; constructor <;> omega)]
          rw [h2sv]
        have hmono : Mono (c.fields.foldl (fun gx r => clearFlagF gx r (((8 : Nat) : Int)).toNat)
            (clearAllF (setSolved gc q ((8 : Nat) : Int)) q)) gc :=
          mono_trans (mono_trans (clearFold_mono _ _ _) (mono_clearAllF _ _))
            (mono_setSolved _ _ _ (by omega))
        refine ⟨c.fields.foldl (fun gx r => clearFlagF gx r (((8 : Nat) : Int)).toNat)
          (clearAllF (setSolved gc q ((8 : Nat) : Int)) q), ?_, ?_, ?_, ?_⟩
        · unfold stepCell
          rw [hnaked, Option.some_bind, hclear, helim]
        · refine ⟨?_, ?_, ?_⟩
          · exact clearFold_fieldsOK _ _ _
              (fieldsOK_clearAllF _ _ (fieldsOK_setSolved _ _ _ hfok))
          · intro r hr hru
            constructor
            · rw [clearFold_solvedEq _ _ _ r, getF_clearAllF_ne _ _ _ hru,
                getF_setSolved_ne _ _ _ _ hru]
              exact (hP1 r hr hru).1
            · intro i
              exact flag_false_of_mono hmono r i ((hP1 r hr hru).2 i)
          · refine Or.inr ⟨?_, ?_⟩
            · rw [clearFold_solvedEq _ _ _ q, h2sv]
              omega
            · intro i
              refine flag_false_of_mono (clearFold_mono _ _ _) q i ?_
              exact getFlag_clearAllF_self _ q i
        · intro x hx hxu
          exact flag_false_of_mono hmono q _ (hx hxu)
        · intro hqq
          exact absurd rfl hqq
      · -- open cell visited while it still has several candidates: no effect
        have hnaked : nakedStep c gc q = some gc := by
          unfold nakedStep
          rw [if_neg]
          rintro ⟨-, h2⟩
          exact his h2
        have hclear : clearStep gc q = gc := by
          unfold clearStep
          rw [if_neg (fun h => h hsv)]
        have helim : elimStep c gc q = some gc := by
          unfold elimStep
          rw [if_neg (fun h => h hsv)]
        refine ⟨gc, ?_, ⟨hfok, hP1, Or.inl ⟨hsv, hflag8⟩⟩, fun x hx => hx, ?_⟩
        · unfold stepCell
          rw [hnaked, Option.some_bind, hclear, helim]
        · intro hqq
          exact absurd rfl hqq
    · -- the open cell was already promoted on an earlier visit
      have hnaked : nakedStep c gc q = some gc := by
        unfold nakedStep
        rw [if_neg]
        rintro ⟨h1, -⟩
        rw [hsv] at h1
        cases h1
      have hclear : clearStep gc q = clearAllF gc q := by
        unfold clearStep
        rw [if_pos (by rw [hsv]; omega)]
      have h2sv : (getF (clearAllF gc q) q).solved_value = 8 := by
        rw [solved_clearAllF_self, hsv]
      have helim : elimStep c (clearAllF gc q) q =
          some (c.fields.foldl (fun gx r => clearFlagF gx r ((8 : Int)).toNat)
            (clearAllF gc q)) := by
        unfold elimStep
        rw [if_pos (by rw [h2sv]; omega), if_pos (by rw [h2sv]; constructor <;> omega)]
        rw [h2sv]
      have hmono : Mono (c.fields.foldl (fun gx r => clearFlagF gx r ((8 : Int)).toNat)
          (clearAllF gc q)) gc :=
        mono_trans (clearFold_mono _ _ _) (mono_clearAllF _ _)
      refine ⟨c.fields.foldl (fun gx r => clearFlagF gx r ((8 : Int)).toNat)
        (clearAllF gc q), ?_, ?_, ?_, ?_⟩
      · unfold stepCell
        rw [hnaked, Option.some_bind, hclear, helim]
      · refine ⟨?_, ?_, ?_⟩
        · exact clearFold_fieldsOK _ _ _ (fieldsOK_clearAllF _ _ hfok)
        · intro r hr hru
          constructor
          · rw [clearFold_solvedEq _ _ _ r, getF_clearAllF_ne _ _ _ hru]
            exact (hP1 r hr hru).1
          · intro i
            exact flag_false_of_mono hmono r i ((hP1 r hr hru).2 i)
        · refine Or.inr ⟨?_, ?_⟩
          · rw [clearFold_solvedEq _ _ _ q, h2sv]
          · intro i
            refine flag_false_of_mono (clearFold_mono _ _ _) q i ?_
            exact getFlag_clearAllF_self _ q i
      · intro x hx hxu
        exact flag_false_of_mono hmono q _ (hx hxu)
      · intro hqq
        exact absurd rfl hqq
  · -- visit of an originally solved cell
    have hq1 := hP1 q hq hqu
    have hr := hrange q hq hqu
    have hnaked : nakedStep c gc q = some gc := by
      unfold nakedStep
      rw [if_neg]
      rintro ⟨h1, -⟩
      rw [hq1.1] at h1
      omega
    have hclear : clearStep gc q = clearAllF gc q := by
      unfold clearStep
      rw [if_pos (by rw [hq1.1]; omega)]
    have h2sv : (getF (clearAllF gc q) q).solved_value = (getF g q).solved_value := by
      rw [solved_clearAllF_self, hq1.1]
    have helim : elimStep c (clearAllF gc q) q =
        some (c.fields.foldl (fun gx r => clearFlagF gx r (getF g q).solved_value.toNat)
          (clearAllF gc q)) := by
      unfold elimStep
      rw [if_pos (by rw [h2sv]; omega), if_pos (by rw [h2sv]; constructor <;> omega)]
      rw [h2sv]
    have hmono : Mono (c.fields.foldl (fun gx r => clearFlagF gx r (getF g q).solved_value.toNat)
        (clearAllF gc q)) gc :=
      mono_trans (clearFold_mono _ _ _) (mono_clearAllF _ _)
    refine ⟨c.fields.foldl (fun gx r => clearFlagF gx r (getF g q).solved_value.toNat)
      (clearAllF gc q), ?_, ?_, ?_, ?_⟩
    · unfold stepCell
      rw [hnaked, Option.some_bind, hclear, helim]
    · refine ⟨?_, ?_, ?_⟩
      · exact clearFold_fieldsOK _ _ _ (fieldsOK_clearAllF _ _ hfok)
      · intro r hrm hru
        constructor
        · by_cases hrq : r = q
          · subst hrq
            rw [clearFold_solvedEq _ _ _ r, h2sv]
          · rw [clearFold_solvedEq _ _ _ r, getF_clearAllF_ne _ _ _ hrq]
            exact (hP1 r hrm hru).1
        · intro i
          exact flag_false_of_mono hmono r i ((hP1 r hrm hru).2 i)
      · have hsvu : (getF (c.fields.foldl
            (fun gx r => clearFlagF gx r (getF g q).solved_value.toNat)
            (clearAllF gc q)) u).solved_value = (getF gc u).solved_value := by
          rw [clearFold_solvedEq _ _ _ u,
            getF_clearAllF_ne _ _ _ (fun h => hqu h.symm)]
        rcases hP2 with ⟨hsv, hflag8⟩ | ⟨hsv, hflags⟩
        · refine Or.inl ⟨by rw [hsvu, hsv], ?_⟩
          rw [clearFold_other_flag _ _ _ u 8 (by omega)]
          unfold getFlag
          rw [getF_clearAllF_ne _ _ _ (fun h => hqu h.symm)]
          exact hflag8
        · refine Or.inr ⟨by rw [hsvu, hsv], ?_⟩
          intro i
          exact flag_false_of_mono hmono u i (hflags i)
    · intro x hx hxu
      exact flag_false_of_mono hmono u _ (hx hxu)
    · intro hqq
      exact clearFold_clears _ _ _ u hu (fieldsOK_clearAllF _ _ hfok) (by omega)

/-- C3: end-to-end scenario.  For any grid and any size-9 region, supplied as the whole
region list, in which eight distinct cells are solved to the eight distinct internal
values 0..7 (digits 1..8) with empty candidate sets per I1 and the remaining cell `u`
is unsolved with all nine candidate flags set, one call of Pass A (`solve_simple`)
succeeds and returns a grid in which `u` is solved to internal value 8 (digit 9) with
an empty candidate set. -/
theorem C3_end_to_end (g : Grid) (c : SudokuConstraint) (u : Pos)
    (hfok : FieldsOK g) (hnd : c.fields.Nodup) (hlen : c.fields.length = 9)
    (hu : u ∈ c.fields)
    (husolved : (getF g u).solved_value = -1)
    (huflags : ∀ i : Fin 9, getFlag (getF g u) i.val = true)
    (hsolved : ∀ q ∈ c.fields, q ≠ u →
      (0 ≤ (getF g q).solved_value ∧ (getF g q).solved_value < 8) ∧
      ∀ i : Fin 9, getFlag (getF g q) i.val = false)
    (honto : ∀ v : Fin 8, ∃ q ∈ c.fields, q ≠ u ∧
      (getF g q).solved_value = (v.val : Int)) :
    ∃ g2, solve_simple [c] g = some g2 ∧
      (getF g2 u).solved_value = 8 ∧ ∀ i : Nat, getFlag (getF g2 u) i = false := by
  have hflagsN : ∀ q ∈ c.fields, q ≠ u → ∀ i : Nat, getFlag (getF g q) i = false := by
    intro q hq hqu i
    by_cases hi : i < 9
    · exact (hsolved q hq hqu).2 ⟨i, hi⟩
    · unfold getFlag
      exact List.getD_eq_default _ _ (by have := hfok q; omega)
  have hinit : C3Inv g g c u :=
    ⟨hfok, fun q hq hqu => ⟨rfl, hflagsN q hq hqu⟩,
      Or.inl ⟨husolved, huflags ⟨8, by omega⟩⟩⟩
  obtain ⟨gc1, hfold, hP1c, -, hQall⟩ :=
    foldlM_inv_estab (fun g2 p => stepCell c g2 p) (fun gx => C3Inv g gx c u)
      (fun gx x => C3Done g gx u x) c.fields
      (fun b a ha hP =>
        C3_step g c u hu (fun r hr hru => (hsolved r hr hru).1) b a ha hP) g hinit
  obtain ⟨hfok1, hP11, hP21⟩ := hP1c
  have hfilter : ([c].filter (fun c2 : SudokuConstraint => c2.fields.length == 9)) = [c] := by
    rw [List.filter_cons_of_pos (by simp [hlen])]
    rfl
  have hsolve : solve_simple [c] g =
      some ((List.range 9).foldl (fun g3 v => hiddenStep g3 c v) gc1) := by
    unfold solve_simple
    simp only [List.foldlM_cons, List.foldlM_nil, hfold, Option.some_bind, Option.pure_def,
      Option.map_some, hfilter, List.foldl_cons, List.foldl_nil]
    rfl
  rcases hP21 with ⟨hsv1, hflag81⟩ | ⟨hsv1, hflags1⟩
  · -- hidden-single phase promotes the still-open cell at value 8
    have hhvLow : ∀ v : Nat, v < 8 → has_value c gc1 (v : Int) = true := by
      intro v hv
      obtain ⟨q, hq, hqu, hval⟩ := honto ⟨v, hv⟩
      have hval2 : (getF g q).solved_value = (v : Int) := by simpa using hval
      exact has_value_true_of c gc1 _ q hq (by rw [(hP11 q hq hqu).1, hval2])
    have hskip : ∀ v : Nat, v < 8 → hiddenStep gc1 c v = gc1 :=
      fun v hv => hiddenStep_of_has gc1 c v (hhvLow v hv)
    have hhv8 : has_value c gc1 ((8 : Nat) : Int) = false := by
      refine has_value_false_of c gc1 _ ?_
      intro r hr
      by_cases hru : r = u
      · subst hru
        rw [hsv1]
        omega
      · rw [(hP11 r hr hru).1]
        have := (hsolved r hr hru).1
        omega
    have hcount : (c.fields.filter (fun q => getFlag (getF gc1 q) 8)).length = 1 := by
      refine filter_unique_length u _ c.fields hnd hu ?_
      intro q hq
      constructor
      · intro hflag
        by_contra hqu
        rw [(hP11 q hq hqu).2 8] at hflag
        cases hflag
      · intro h
        subst h
        exact hflag81
    have h8 : hiddenStep gc1 c 8 = setSolvedClear gc1 u ((8 : Nat) : Int) := by
      unfold hiddenStep
      rw [if_neg (by rw [hhv8]; exact Bool.false_ne_true), if_pos hcount]
      exact hiddenFold_solves 8 c.fields gc1 u hcount hu hflag81
    refine ⟨setSolvedClear gc1 u ((8 : Nat) : Int), ?_, ?_, ?_⟩
    · rw [hsolve]
      congr 1
      rw [show List.range 9 = [0, 1, 2, 3, 4, 5, 6, 7, 8] from rfl]
      simp only [List.foldl_cons, List.foldl_nil]
      rw [hskip 0 (by omega), hskip 1 (by omega), hskip 2 (by omega), hskip 3 (by omega),
        hskip 4 (by omega), hskip 5 (by omega), hskip 6 (by omega), hskip 7 (by omega), h8]
    · rw [solved_setSolvedClear]
      omega
    · intro i
      exact getFlag_setSolvedClear gc1 u _ i
  · -- the open cell was already promoted during the local-reduction phase
    have hfix : getF ((List.range 9).foldl (fun g3 v => hiddenStep g3 c v) gc1) u
        = getF gc1 u := by
      refine foldl_pres _ (fun gx => getF gx u = getF gc1 u) _ ?_ gc1 rfl
      intro gx v hv hgx
      exact hiddenStep_fix_cell gx c v u (getF gc1 u) hflags1 hgx
    refine ⟨(List.range 9).foldl (fun g3 v => hiddenStep g3 c v) gc1, hsolve, ?_, ?_⟩
    · rw [hfix]
      exact hsv1
    · intro i
      rw [hfix]
      exact hflags1 i

/-- Witness for C3: the concrete row-0 instance with identity digit assignment. -/
theorem C3_end_to_end_witness :
    ∃ g2, solve_simple [C3c] C3grid = some g2 ∧
      (getF g2 ((8 : Fin 9), (0 : Fin 9))).solved_value = 8 ∧
      ∀ i : Nat, getFlag (getF g2 ((8 : Fin 9), (0 : Fin 9))) i = false :=
  C3_end_to_end C3grid C3c ((8 : Fin 9), (0 : Fin 9)) (by decide) (by decide) (by decide)
    (by decide) (by decide) (by decide) (by decide) (by decide)
